import Mathlib

/-!
# brand-alert-go: the request-construction and response-parsing pipeline

A shallow embedding of `brandalert.go`, `models.go` and `options.go`.

* Go strings are Lean `String`s, Go `int` is `Int`, a `[]byte` is a list of byte values.
* A Go slice is `Option (List α)`: `none` is the nil slice, `some xs` a non-nil slice.
  A pointer to a slice is one more `Option` around it.
* A Go `error` is a value of the inductive `Error`; `none : Option Error` is the nil error.
* The HTTP client (`client.NewRequest`, `client.Do`) is an explicit environment `Env`.
* Every entry point returns, next to the Go results, the list of request bodies that were
  handed to `client.Do` (field `sent`), so that "what was sent" can be stated.
-/

set_option linter.dupNamespace false

namespace brandalert

/-! ## Basic data -/

/-- A Go `[]string`: `none` is the nil slice, `some xs` a non-nil slice (possibly empty). -/
abbrev StringSlice := Option (List String)

/-- Go `len` on a `[]string`. -/
def StringSlice.len : StringSlice → Nat
  | none => 0
  | some xs => xs.length

/-- SearchTerms is a set of including or excluding search terms (`models.go`). -/
abbrev SearchTerms := StringSlice

/-- Messages is a wrapper on `[]string` (`models.go`). -/
abbrev Messages := StringSlice

/-- A `[]byte`. -/
abbrev Bytes := List Nat

/-- The bytes of a string literal made of ASCII characters. -/
def asciiBytes (s : String) : Bytes := s.data.map Char.toNat

/-- ArgError is the argument error (`brandalert.go`). -/
structure ArgError where
  Name : String
  Message : String
deriving DecidableEq, Repr

/-- Error returns error message as a string. -/
def ArgError.Error (a : ArgError) : String :=
  "invalid argument: \"" ++ a.Name ++ "\" " ++ a.Message

/-- ErrorMessage is the error message (`models.go`). -/
structure ErrorMessage where
  Code : Int
  Message : Messages
deriving DecidableEq, Repr

/-- The part of `http.Response` the package reads. -/
structure HTTPResponse where
  StatusCode : Int
deriving DecidableEq, Repr

/-- Response is the `http.Response` wrapper with Body saved as a byte slice. -/
structure Response where
  Response : Option HTTPResponse
  Body : Bytes
deriving DecidableEq, Repr

/-! ## JSON values -/

/-- A JSON document as `encoding/json` sees it. A number keeps its literal text, an object
keeps its members in order (duplicates included). -/
inductive Json where
  | null
  | bool (b : Bool)
  | num (lit : String)
  | str (s : String)
  | arr (items : List Json)
  | obj (fields : List (String × Json))
deriving Repr, Inhabited

/-- First member of an object with the given key. -/
def Json.member (k : String) : Json → Option Json
  | .obj fields => (fields.find? (fun kv => kv.1 == k)).map Prod.snd
  | _ => none

/-- The keys of an object, in order. -/
def Json.keys : Json → List String
  | .obj fields => fields.map Prod.fst
  | _ => []

/-! ## The JSON scanner of `encoding/json`

The package decodes with `json.NewDecoder(..).Decode` and `json.Unmarshal`. Both first run the
library's byte scanner over the text; the functions below read the same grammar, stop at the same
offending byte and report the scanner's error. Recursion is on a fuel argument that is spent
once per nested value or per byte of a run; the input length plus one is always enough. -/

/-- Errors reported by `encoding/json` and by `time.Parse`. -/
inductive LibError where
  | eof
  | unexpectedEOF
  | unexpectedEnd
  | syntaxError (msg : String)
  | unmarshalType (value : String) (goType : String) (field : String)
  | timeParse (value : String) (msg : String)
deriving DecidableEq, Repr

/-- Lower-case hexadecimal digit. -/
def hexDigit (n : Nat) : Char :=
  if n < 10 then Char.ofNat (48 + n) else Char.ofNat (87 + n)

/-- The scanner's `quoteChar`: a byte as a quoted character literal. -/
def quoteChar (c : Nat) : String :=
  if c = 39 then "'\\''"
  else if c = 34 then "'\"'"
  else
    let body : String :=
      if c = 7 then "\\a" else if c = 8 then "\\b" else if c = 12 then "\\f"
      else if c = 10 then "\\n" else if c = 13 then "\\r" else if c = 9 then "\\t"
      else if c = 11 then "\\v" else if c = 92 then "\\\\"
      else if (32 ≤ c ∧ c ≤ 126) ∨ (161 ≤ c ∧ c ≤ 255 ∧ c ≠ 173) then String.singleton (Char.ofNat c)
      else if c < 128 then
        "\\x" ++ String.mk [hexDigit (c / 16), hexDigit (c % 16)]
      else
        "\\u" ++ String.mk [hexDigit (c / 4096 % 16), hexDigit (c / 256 % 16),
          hexDigit (c / 16 % 16), hexDigit (c % 16)]
    "'" ++ body ++ "'"

/-- The scanner's syntax error for byte `c` met in the given context. -/
def badChar (c : Nat) (context : String) : LibError :=
  .syntaxError ("invalid character " ++ quoteChar c ++ " " ++ context)

/-- The scanner's `isSpace`. -/
def isSpace (c : Nat) : Bool := c = 32 ∨ c = 9 ∨ c = 13 ∨ c = 10

/-- Drop leading JSON white space. -/
def skipSpace : Bytes → Bytes
  | [] => []
  | c :: rest => if isSpace c then skipSpace rest else c :: rest

/-- Decimal digit test on a byte. -/
def isDigitByte (c : Nat) : Bool := 48 ≤ c ∧ c ≤ 57

/-- Value of a hexadecimal digit byte. -/
def hexVal (c : Nat) : Option Nat :=
  if 48 ≤ c ∧ c ≤ 57 then some (c - 48)
  else if 97 ≤ c ∧ c ≤ 102 then some (c - 87)
  else if 65 ≤ c ∧ c ≤ 70 then some (c - 55)
  else none

/-- Continuation byte of a UTF-8 sequence. -/
def isCont (c : Nat) : Bool := 128 ≤ c ∧ c ≤ 191

/-- Go `utf8.DecodeRune` on a non-ASCII lead byte `b0` followed by `rest`: the rune and the
remaining bytes; an invalid sequence gives U+FFFD and consumes one byte. -/
def decodeRune (b0 : Nat) (rest : Bytes) : Char × Bytes :=
  let bad : Char × Bytes := (Char.ofNat 65533, rest)
  if 194 ≤ b0 ∧ b0 ≤ 223 then
    match rest with
    | b1 :: r => if isCont b1 then (Char.ofNat ((b0 - 192) * 64 + (b1 - 128)), r) else bad
    | _ => bad
  else if 224 ≤ b0 ∧ b0 ≤ 239 then
    match rest with
    | b1 :: b2 :: r =>
      let lo := if b0 = 224 then 160 else 128
      let hi := if b0 = 237 then 159 else 191
      if lo ≤ b1 ∧ b1 ≤ hi ∧ isCont b2 then
        (Char.ofNat ((b0 - 224) * 4096 + (b1 - 128) * 64 + (b2 - 128)), r)
      else bad
    | _ => bad
  else if 240 ≤ b0 ∧ b0 ≤ 244 then
    match rest with
    | b1 :: b2 :: b3 :: r =>
      let lo := if b0 = 240 then 144 else 128
      let hi := if b0 = 244 then 143 else 191
      if lo ≤ b1 ∧ b1 ≤ hi ∧ isCont b2 ∧ isCont b3 then
        (Char.ofNat ((b0 - 240) * 262144 + (b1 - 128) * 4096 + (b2 - 128) * 64 + (b3 - 128)), r)
      else bad
    | _ => bad
  else bad

/-- Four hexadecimal digits (the scanner's `getu4` after the `\\u`). -/
def getu4 : Bytes → Option (Nat × Bytes)
  | a :: b :: c :: d :: rest =>
    match hexVal a, hexVal b, hexVal c, hexVal d with
    | some x, some y, some z, some w => some (x * 4096 + y * 256 + z * 16 + w, rest)
    | _, _, _, _ => none
  | _ => none

/-- Error for a `\\u` escape whose four digits are missing or wrong: the first byte that is not
a hexadecimal digit, or the end of the input. -/
def badU4 : Nat → Bytes → LibError
  | 0, _ => .unexpectedEOF
  | _, [] => .unexpectedEOF
  | n + 1, c :: rest =>
    if (hexVal c).isSome then badU4 n rest
    else badChar c "in \\u hexadecimal character escape"

/-- What one step of reading a string literal does. -/
inductive StringStep where
  | done
  | push (c : Char) (rest : Bytes)
  | fail (e : LibError)

/-- One step inside a string literal, at byte `c` followed by `rest`: the closing quote, an
escape sequence, a control byte (an error), an ASCII byte, or a UTF-8 sequence. A `\\u` escape
of a high surrogate takes the following `\\u` escape along when that is a low surrogate. -/
def stringStep (c : Nat) (rest : Bytes) : StringStep :=
  if c = 34 then .done
  else if c = 92 then
    match rest with
    | [] => .fail .unexpectedEOF
    | e :: rest2 =>
      if e = 34 ∨ e = 92 ∨ e = 47 then .push (Char.ofNat e) rest2
      else if e = 98 then .push (Char.ofNat 8) rest2
      else if e = 102 then .push (Char.ofNat 12) rest2
      else if e = 110 then .push (Char.ofNat 10) rest2
      else if e = 114 then .push (Char.ofNat 13) rest2
      else if e = 116 then .push (Char.ofNat 9) rest2
      else if e = 117 then
        match getu4 rest2 with
        | none => .fail (badU4 4 rest2)
        | some (r1, rest3) =>
          if 55296 ≤ r1 ∧ r1 < 57344 then
            match rest3 with
            | 92 :: 117 :: rest4 =>
              match getu4 rest4 with
              | some (r2, rest5) =>
                if r1 < 56320 ∧ 56320 ≤ r2 ∧ r2 < 57344 then
                  .push (Char.ofNat ((r1 - 55296) * 1024 + (r2 - 56320) + 65536)) rest5
                else .push (Char.ofNat 65533) rest3
              | none => .push (Char.ofNat 65533) rest3
            | _ => .push (Char.ofNat 65533) rest3
          else .push (Char.ofNat r1) rest3
      else .fail (badChar e "in string escape code")
  else if c < 32 then .fail (badChar c "in string literal")
  else if c < 128 then .push (Char.ofNat c) rest
  else .push (decodeRune c rest).1 (decodeRune c rest).2

/-- The body of a string literal after its opening quote: the decoded text (escapes resolved,
invalid UTF-8 and lone surrogates replaced by U+FFFD) and the input after the closing quote. -/
def scanString : Nat → Bytes → List Char → Except LibError (String × Bytes)
  | 0, _, _ => .error .unexpectedEOF
  | _ + 1, [], _ => .error .unexpectedEOF
  | fuel + 1, c :: rest, acc =>
    match stringStep c rest with
    | .done => .ok (String.mk acc.reverse, rest)
    | .push ch rest2 => scanString fuel rest2 (ch :: acc)
    | .fail e => .error e

/-- A maximal run of decimal digits. -/
def takeDigits : Bytes → List Char → List Char × Bytes
  | [], acc => (acc, [])
  | c :: rest, acc =>
    if isDigitByte c then takeDigits rest (Char.ofNat c :: acc) else (acc, c :: rest)

/-- A number literal, the input starting at its first byte (`-` or a digit): the literal text
and the input after it. -/
def scanNumber (input : Bytes) : Except LibError (String × Bytes) :=
  let signed : List Char × Bytes :=
    match input with
    | 45 :: rest => ([Char.ofNat 45], rest)
    | _ => ([], input)
  match signed.2 with
  | [] => .error .unexpectedEOF
  | d :: rest =>
    if !isDigitByte d then .error (badChar d "in numeric literal")
    else
      let intPart : List Char × Bytes :=
        if d = 48 then (Char.ofNat 48 :: signed.1, rest)
        else takeDigits rest (Char.ofNat d :: signed.1)
      let fracPart : Except LibError (List Char × Bytes) :=
        match intPart.2 with
        | 46 :: r =>
          match r with
          | [] => .error .unexpectedEOF
          | f :: r2 =>
            if isDigitByte f then .ok (takeDigits r2 (Char.ofNat f :: Char.ofNat 46 :: intPart.1))
            else .error (badChar f "after decimal point in numeric literal")
        | _ => .ok intPart
      match fracPart with
      | .error e => .error e
      | .ok fp =>
        match fp.2 with
        | e :: r =>
          if e = 101 ∨ e = 69 then
            let sgn : List Char × Bytes :=
              match r with
              | s :: r2 =>
                if s = 43 ∨ s = 45 then (Char.ofNat s :: Char.ofNat e :: fp.1, r2)
                else (Char.ofNat e :: fp.1, r)
              | [] => (Char.ofNat e :: fp.1, r)
            match sgn.2 with
            | [] => .error .unexpectedEOF
            | x :: r3 =>
              if isDigitByte x then
                let ex := takeDigits r3 (Char.ofNat x :: sgn.1)
                .ok (String.mk ex.1.reverse, ex.2)
              else .error (badChar x "in exponent of numeric literal")
          else .ok (String.mk fp.1.reverse, fp.2)
        | [] => .ok (String.mk fp.1.reverse, fp.2)

/-- The rest of a literal name (`rue`, `alse`, `ull`) after its first byte. `seen` is the part
read so far and `name` the whole literal, both for the error text. -/
def scanLiteral (name : String) : List Char → List Char → Bytes → Except LibError Bytes
  | _, [], rest => .ok rest
  | _, _ :: _, [] => .error .unexpectedEOF
  | seen, x :: xs, c :: rest =>
    if c = x.toNat then scanLiteral name (seen ++ [x]) xs rest
    else .error (badChar c ("in literal " ++ name ++ " (expecting '" ++ String.singleton x ++ "')"))

mutual
/-- One JSON value, leading white space skipped: the value and the input after it. -/
def scanValue : Nat → Bytes → Except LibError (Json × Bytes)
  | 0, _ => .error .unexpectedEOF
  | fuel + 1, input =>
    match skipSpace input with
    | [] => .error .unexpectedEOF
    | c :: rest =>
      if c = 123 then
        match skipSpace rest with
        | [] => .error .unexpectedEOF
        | d :: rest2 =>
          if d = 125 then .ok (.obj [], rest2)
          else scanMembers fuel (d :: rest2) []
      else if c = 91 then
        match skipSpace rest with
        | [] => .error .unexpectedEOF
        | d :: rest2 =>
          if d = 93 then .ok (.arr [], rest2)
          else scanElements fuel (d :: rest2) []
      else if c = 34 then
        match scanString (rest.length + 1) rest [] with
        | .error e => .error e
        | .ok (s, rest2) => .ok (.str s, rest2)
      else if c = 45 ∨ isDigitByte c then
        match scanNumber (c :: rest) with
        | .error e => .error e
        | .ok (lit, rest2) => .ok (.num lit, rest2)
      else if c = 116 then
        match scanLiteral "true" ['t'] ['r', 'u', 'e'] rest with
        | .error e => .error e
        | .ok rest2 => .ok (.bool true, rest2)
      else if c = 102 then
        match scanLiteral "false" ['f'] ['a', 'l', 's', 'e'] rest with
        | .error e => .error e
        | .ok rest2 => .ok (.bool false, rest2)
      else if c = 110 then
        match scanLiteral "null" ['n'] ['u', 'l', 'l'] rest with
        | .error e => .error e
        | .ok rest2 => .ok (.null, rest2)
      else .error (badChar c "looking for beginning of value")
/-- The elements of an array from the start of an element on; `acc` holds the elements read so
far, last first. -/
def scanElements : Nat → Bytes → List Json → Except LibError (Json × Bytes)
  | 0, _, _ => .error .unexpectedEOF
  | fuel + 1, input, acc =>
    match scanValue fuel input with
    | .error e => .error e
    | .ok (v, rest) =>
      match skipSpace rest with
      | [] => .error .unexpectedEOF
      | c :: rest2 =>
        if c = 44 then scanElements fuel rest2 (v :: acc)
        else if c = 93 then .ok (.arr (v :: acc).reverse, rest2)
        else .error (badChar c "after array element")
/-- The members of an object from the start of a key on (white space skipped by the caller or
here); `acc` holds the members read so far, last first. -/
def scanMembers : Nat → Bytes → List (String × Json) → Except LibError (Json × Bytes)
  | 0, _, _ => .error .unexpectedEOF
  | fuel + 1, input, acc =>
    match skipSpace input with
    | [] => .error .unexpectedEOF
    | q :: rest =>
      if q ≠ 34 then .error (badChar q "looking for beginning of object key string")
      else
        match scanString (rest.length + 1) rest [] with
        | .error e => .error e
        | .ok (k, rest2) =>
          match skipSpace rest2 with
          | [] => .error .unexpectedEOF
          | c :: rest3 =>
            if c ≠ 58 then .error (badChar c "after object key")
            else
              match scanValue fuel rest3 with
              | .error e => .error e
              | .ok (v, rest4) =>
                match skipSpace rest4 with
                | [] => .error .unexpectedEOF
                | d :: rest5 =>
                  if d = 44 then scanMembers fuel rest5 ((k, v) :: acc)
                  else if d = 125 then .ok (.obj ((k, v) :: acc).reverse, rest5)
                  else .error (badChar d "after object key:value pair")
end

/-- What `json.NewDecoder(r).Decode` reads from a stream holding exactly `raw`: the first JSON
value; what follows that value is left unread. -/
def decodeValue (raw : Bytes) : Except LibError Json :=
  match skipSpace raw with
  | [] => .error .eof
  | _ :: _ =>
    match scanValue (raw.length + 1) raw with
    | .error e => .error e
    | .ok (v, _) => .ok v

/-- What `json.Unmarshal` reads from `raw` (its `checkValid` pass): one JSON value followed by
white space only. -/
def unmarshalValue (raw : Bytes) : Except LibError Json :=
  match skipSpace raw with
  | [] => .error .unexpectedEnd
  | _ :: _ =>
    match scanValue (raw.length + 1) raw with
    | .error .unexpectedEOF => .error .unexpectedEnd
    | .error e => .error e
    | .ok (v, rest) =>
      match skipSpace rest with
      | [] => .ok v
      | c :: _ => .error (badChar c "after top-level value")

/-! ## Dates: `time.Time`, `Format` and `Parse` for the layout `2006-01-02` -/

/-- Time is a helper wrapper on `time.Time` (`models.go`). The value is held as the civil date
and the time of day in its own location; `loc = none` is UTC (the nil location pointer). -/
structure Time where
  year : Int
  month : Nat
  day : Nat
  nsecOfDay : Nat
  loc : Option String
deriving DecidableEq, Repr

/-- The package variable `emptyTime`: the zero `Time`, 1 January of year 1, 00:00:00 UTC. -/
def emptyTime : Time := ⟨1, 1, 1, 0, none⟩

/-- The constant `dateFormat`. -/
def dateFormat : String := "2006-01-02"

/-- Decimal digit character of a number below ten. -/
def digitChar (n : Nat) : Char := Char.ofNat (48 + n)

/-- Go `time.appendInt` for a non-negative value: decimal digits, zero-padded to `width`, with
the library's direct paths for two-digit and four-digit fields. -/
def appendNat (u : Nat) (width : Nat) : List Char :=
  if width = 2 ∧ u < 100 then [digitChar (u / 10), digitChar (u % 10)]
  else if width = 4 ∧ u < 10000 then
    [digitChar (u / 100 / 10), digitChar (u / 100 % 10),
     digitChar (u % 100 / 10), digitChar (u % 100 % 10)]
  else
    let ds := (Nat.repr u).data
    List.replicate (width - ds.length) '0' ++ ds

/-- Go `time.appendInt`: a minus sign for a negative value, then the padded digits. -/
def appendInt (x : Int) (width : Nat) : List Char :=
  if x < 0 then '-' :: appendNat x.natAbs width else appendNat x.natAbs width

/-- The result of `t.Format(dateFormat)`: year, month and day of `t` in its location. -/
def Time.Format (t : Time) : String :=
  String.mk (appendInt t.year 4 ++ '-' :: appendNat t.month 2 ++ '-' :: appendNat t.day 2)

/-- Go `time.isLeap`. -/
def isLeap (year : Int) : Bool := year % 4 = 0 ∧ (year % 100 ≠ 0 ∨ year % 400 = 0)

/-- Go `time.daysIn`. -/
def daysIn (month : Nat) (year : Int) : Nat :=
  if month = 2 then (if isLeap year then 29 else 28)
  else if month = 4 ∨ month = 6 ∨ month = 9 ∨ month = 11 then 30
  else 31

/-- Value of a decimal digit character. -/
def digitVal (c : Char) : Option Nat :=
  if '0' ≤ c ∧ c ≤ '9' then some (c.toNat - 48) else none

/-- The UTF-8 bytes of a code point. -/
def utf8Bytes (n : Nat) : List Nat :=
  if n < 128 then [n]
  else if n < 2048 then [192 + n / 64, 128 + n % 64]
  else if n < 65536 then [224 + n / 4096, 128 + n / 64 % 64, 128 + n % 64]
  else [240 + n / 262144, 128 + n / 4096 % 64, 128 + n / 64 % 64, 128 + n % 64]

/-- One character as `time.quote` writes it: a quote or backslash behind a backslash, a
control or non-ASCII character as the hexadecimal escapes of its UTF-8 bytes. -/
def quoteRune (c : Char) : List Char :=
  if c.toNat ≥ 128 ∨ c.toNat < 32 then
    (utf8Bytes c.toNat).flatMap (fun b => [Char.ofNat 92, 'x', hexDigit (b / 16), hexDigit (b % 16)])
  else if c.toNat = 34 ∨ c.toNat = 92 then [Char.ofNat 92, c]
  else [c]

/-- Go `time.quote`, which `time.ParseError` uses for the value and its elements. -/
def timeQuote (s : List Char) : String :=
  String.mk (Char.ofNat 34 :: (s.flatMap quoteRune ++ [Char.ofNat 34]))

/-- A `time.ParseError` without message: `cannot parse "elem" as "layoutElem"`. -/
def cannotParse (value : String) (elem : List Char) (layoutElem : String) : LibError :=
  .timeParse value (" as " ++ timeQuote dateFormat.data ++ ": cannot parse " ++ timeQuote elem
    ++ " as " ++ timeQuote layoutElem.data)

/-- Go `time.Parse(dateFormat, value)`: four digits, `-`, two digits, `-`, two digits and
nothing else; the month must lie in 1..12 and the day in the month. The result is midnight UTC
of that day. -/
def parseDate (value : String) : Except LibError Time :=
  match value.data with
  | y1 :: y2 :: y3 :: y4 :: rest =>
    match digitVal y1, digitVal y2, digitVal y3, digitVal y4 with
    | some a, some b, some c, some d =>
      let year : Nat := a * 1000 + b * 100 + c * 10 + d
      match rest with
      | '-' :: rest2 =>
        match rest2 with
        | m1 :: m2 :: rest3 =>
          match digitVal m1, digitVal m2 with
          | some e, some f =>
            let month := e * 10 + f
            if month = 0 ∨ 12 < month then .error (.timeParse value ": month out of range")
            else
              match rest3 with
              | '-' :: rest4 =>
                match rest4 with
                | d1 :: d2 :: rest5 =>
                  match digitVal d1, digitVal d2 with
                  | some g, some h =>
                    let day := g * 10 + h
                    if rest5 ≠ [] then
                      .error (.timeParse value (": extra text: " ++ timeQuote rest5))
                    else if day < 1 ∨ day > daysIn month year then
                      .error (.timeParse value ": day out of range")
                    else .ok ⟨year, month, day, 0, none⟩
                  | _, _ => .error (cannotParse value rest4 "02")
                | _ => .error (cannotParse value rest4 "02")
              | _ => .error (cannotParse value rest3 "-")
          | _, _ => .error (cannotParse value rest2 "01")
        | _ => .error (cannotParse value rest2 "01")
      | _ => .error (cannotParse value rest "-")
    | _, _, _, _ => .error (cannotParse value value.data "2006")
  | _ => .error (cannotParse value value.data "2006")

/-- What `json.Unmarshal(raw, &val)` stores in a string variable that starts empty, for the
JSON value `v` that `raw` holds: a string is stored, `null` leaves the variable alone, any
other value is a type error. -/
def stringOfValue : Json → Except LibError String
  | .str s => .ok s
  | .null => .ok ""
  | .bool _ => .error (.unmarshalType "bool" "string" "")
  | .num _ => .error (.unmarshalType "number" "string" "")
  | .arr _ => .error (.unmarshalType "array" "string" "")
  | .obj _ => .error (.unmarshalType "object" "string" "")

/-- The function `unmarshalString` of `models.go`. -/
def unmarshalString (raw : Bytes) : Except LibError String :=
  match unmarshalValue raw with
  | .error e => .error e
  | .ok v => stringOfValue v

/-- The body of `(*Time).UnmarshalJSON` once `unmarshalString` has returned: the new value of
the target and the error. -/
def Time.store (t : Time) : Except LibError String → Time × Option LibError
  | .error e => (t, some e)
  | .ok str =>
    if str = "" then (emptyTime, none)
    else
      match parseDate str with
      | .error e => (t, some e)
      | .ok v => (v, none)

/-- UnmarshalJSON decodes time as Brand Alert API does: the new value of the target `t` and
the returned error. -/
def Time.UnmarshalJSON (t : Time) (b : Bytes) : Time × Option LibError :=
  Time.store t (unmarshalString b)

/-- The same method when the decoder calls it with the text of the already scanned value `v`. -/
def Time.decodeFrom (t : Time) (v : Json) : Time × Option LibError :=
  Time.store t (stringOfValue v)

/-- MarshalJSON encodes time as Brand Alert API does; the result is the JSON text. -/
def Time.MarshalJSON (t : Time) : String :=
  if t = emptyTime then "\"\"" else "\"" ++ t.Format ++ "\""

/-! ## Numbers and `fmt.Sprintf("%s", x)` on decoded JSON -/

/-- Value of a non-empty run of decimal digits. -/
def digitsValue : List Char → Option Nat
  | [] => none
  | c :: rest =>
    rest.foldl (fun acc d => match acc, digitVal d with
      | some n, some k => some (n * 10 + k)
      | _, _ => none) (digitVal c)

/-- Go `strconv.ParseInt(lit, 10, 64)` on a JSON number literal: the value when the literal is
an optional minus sign and digits only and fits 64 bits. -/
def parseInt64 (lit : String) : Option Int :=
  let neg : Bool := lit.data.head? = some '-'
  let ds : List Char := if neg then lit.data.tail else lit.data
  match digitsValue ds with
  | none => none
  | some n =>
    let v : Int := if neg then -(n : Int) else (n : Int)
    if -(9223372036854775808 : Int) ≤ v ∧ v ≤ 9223372036854775807 then some v else none

/-- The digits of the mantissa of a number literal (sign, point removed), the number of digits
after the point, and the characters of the exponent part after `e`. -/
def splitNumber (lit : String) : List Char × Nat × List Char :=
  let unsigned := if lit.data.head? = some '-' then lit.data.tail else lit.data
  let mant := unsigned.takeWhile (fun c => c ≠ 'e' ∧ c ≠ 'E')
  let expo := (unsigned.dropWhile (fun c => c ≠ 'e' ∧ c ≠ 'E')).tail
  let intDigits := mant.takeWhile (fun c => c ≠ '.')
  let fracDigits := (mant.dropWhile (fun c => c ≠ '.')).tail
  (intDigits ++ fracDigits, fracDigits.length, expo)

/-- Whether `strconv.ParseFloat(lit, 64)` reports a range error: the magnitude of the literal
is at least `2^1024 - 2^970`, the point from which rounding gives infinity. -/
def floatOverflows (lit : String) : Bool :=
  let parts := splitNumber lit
  let mant : Nat := (digitsValue parts.1).getD 0
  let expNeg : Bool := parts.2.2.head? = some '-'
  let expDigits := if parts.2.2.head? = some '-' ∨ parts.2.2.head? = some '+'
    then parts.2.2.tail else parts.2.2
  let expAbs : Nat := (digitsValue expDigits).getD 0
  let limit : Nat := (2 ^ 54 - 1) * 2 ^ 970
  if mant = 0 then false
  else if expNeg then
    -- value = mant / 10 ^ (expAbs + fraction digits)
    let down := expAbs + parts.2.1
    if down ≥ parts.1.length then false else mant ≥ limit * 10 ^ down
  else if expAbs ≥ parts.2.1 then
    let up := expAbs - parts.2.1
    if up > 400 then true else mant * 10 ^ up ≥ limit
  else
    let down := parts.2.1 - expAbs
    if down ≥ parts.1.length then false else mant ≥ limit * 10 ^ down

/-- Insert a rendered map entry, keeping keys sorted and one entry per key (a later member of
the object replaces an earlier one with the same key). -/
def insertEntry (k v : String) : List (String × String) → List (String × String)
  | [] => [(k, v)]
  | (k2, v2) :: rest =>
    if k = k2 then (k, v) :: rest
    else if k < k2 then (k, v) :: (k2, v2) :: rest
    else (k2, v2) :: insertEntry k v rest

/-- Join with single spaces, as `fmt` prints the elements of a slice or map. -/
def joinSpace : List String → String
  | [] => ""
  | [x] => x
  | x :: y :: rest => x ++ " " ++ joinSpace (y :: rest)

mutual
/-- The text `fmt` prints under the verb `%s` for the value `encoding/json` stores in an
`interface{}` for a JSON document. `g` renders a number literal the way `%v` prints the float64
nearest to it. -/
def sprintS (g : String → String) : Json → String
  | .null => "%!s(<nil>)"
  | .bool b => "%!s(bool=" ++ (if b then "true" else "false") ++ ")"
  | .num lit => "%!s(float64=" ++ g lit ++ ")"
  | .str s => s
  | .arr items => "[" ++ joinSpace (sprintItems g items) ++ "]"
  | .obj fields =>
    "map[" ++ joinSpace (((sprintFields g fields).foldl
      (fun acc kv => insertEntry kv.1 kv.2 acc) []).map (fun kv => kv.1 ++ ":" ++ kv.2)) ++ "]"
/-- The operand texts of the elements of a slice. -/
def sprintItems (g : String → String) : List Json → List String
  | [] => []
  | .null :: rest => "<nil>" :: sprintItems g rest
  | v :: rest => sprintS g v :: sprintItems g rest
/-- The key and operand text of each member of an object. -/
def sprintFields (g : String → String) : List (String × Json) → List (String × String)
  | [] => []
  | (k, .null) :: rest => (k, "<nil>") :: sprintFields g rest
  | (k, v) :: rest => (k, sprintS g v) :: sprintFields g rest
end

mutual
/-- The error `json.Unmarshal(b, &x)` returns for `x interface{}` on a scanned document: the
first number literal outside the float64 range, if any. -/
def interfaceError : Json → Option LibError
  | .num lit => if floatOverflows lit then
      some (.unmarshalType ("number " ++ lit) "float64" "") else none
  | .arr items => interfaceErrorItems items
  | .obj fields => interfaceErrorFields fields
  | _ => none
/-- First such error among the elements of an array. -/
def interfaceErrorItems : List Json → Option LibError
  | [] => none
  | v :: rest =>
    match interfaceError v with
    | some e => some e
    | none => interfaceErrorItems rest
/-- First such error among the members of an object. -/
def interfaceErrorFields : List (String × Json) → Option LibError
  | [] => none
  | (_, v) :: rest =>
    match interfaceError v with
    | some e => some e
    | none => interfaceErrorFields rest
end

/-- What `json.Unmarshal(b, &msgs)` gives for `msgs []string` starting nil, on the scanned
value of `b`: `none` when it returns an error, else the slice stored. `null` leaves the slice
nil; in an array a string is stored, a `null` element stays empty and any other element is a
type error. -/
def stringsOfValue : Json → Option Messages
  | .null => some none
  | .arr items =>
    if items.all (fun v => match v with
      | .str _ => true
      | .null => true
      | _ => false)
    then some (some (items.map (fun v => match v with
      | .str s => s
      | _ => "")))
    else none
  | _ => none

/-- The body of `(*Messages).UnmarshalJSON` on the scanned value of `b`: the new value of the
target `m` and the returned error. -/
def Messages.decodeFrom (g : String → String) (m : Messages) (v : Json) :
    Messages × Option LibError :=
  match stringsOfValue v with
  | some msgs => (msgs, none)
  | none =>
    match interfaceError v with
    | some e => (m, some e)
    | none => (some (m.getD [] ++ [sprintS g v]), none)

/-- UnmarshalJSON decodes the error messages returned by Registrant Alert API: the new value
of the target `m` and the returned error. Both `json.Unmarshal` calls fail alike when `b` is
not a JSON text. -/
def Messages.UnmarshalJSON (g : String → String) (m : Messages) (b : Bytes) :
    Messages × Option LibError :=
  match unmarshalValue b with
  | .error e => (m, some e)
  | .ok v => Messages.decodeFrom g m v

/-! ## Response model and its decoding

`parse` decodes into `apiResponse`, whose JSON members are those of the two embedded structs.
The decoder matches a key with a field name exactly or under case folding, ignores unknown
keys, keeps the first type error and goes on (returning it at the end), and stops at once on
an error returned by an `UnmarshalJSON` method. An array is decoded into the elements the
slice already holds: when the `domainsList` key is repeated, element `i` of the later array is
decoded into what the backing array holds at index `i` (the zero item beyond what was ever
written), so a field the later object does not name keeps its earlier value. The backing array
is carried along as `store`. -/

/-- DomainItem is a part of the Brand Alert API response. -/
structure DomainItem where
  DomainName : String
  Action : String
  Date : Time
deriving DecidableEq, Repr

/-- BrandAlertResponse is a response of Brand Alert API. -/
structure BrandAlertResponse where
  DomainsList : Option (List DomainItem)
  DomainsCount : Int
deriving DecidableEq, Repr

/-- The struct `apiResponse` of `brandalert.go`, used for parsing Brand Alert API response. -/
structure apiResponse where
  BrandAlertResponse : BrandAlertResponse
  ErrorMessage : ErrorMessage
deriving DecidableEq, Repr

/-- The zero `DomainItem`. -/
def DomainItem.zero : DomainItem := ⟨"", "", emptyTime⟩

/-- The zero `apiResponse` (`var response apiResponse`). -/
def apiResponse.zero : apiResponse := ⟨⟨none, 0⟩, ⟨0, none⟩⟩

/-- The text of a library error (`err.Error()`). -/
def LibError.Error : LibError → String
  | .eof => "EOF"
  | .unexpectedEOF => "unexpected EOF"
  | .unexpectedEnd => "unexpected end of JSON input"
  | .syntaxError msg => msg
  | .unmarshalType value goType field =>
    if field = "" then "json: cannot unmarshal " ++ value ++ " into Go value of type " ++ goType
    else "json: cannot unmarshal " ++ value ++ " into Go struct field " ++ field
      ++ " of type " ++ goType
  | .timeParse value msg => "parsing time " ++ timeQuote value.data ++ msg

/-- Case folding of a key character as the decoder does it for field matching. -/
def foldChar (c : Char) : Char :=
  if 'A' ≤ c ∧ c ≤ 'Z' then Char.ofNat (c.toNat + 32)
  else if c = Char.ofNat 383 then 's'
  else if c = Char.ofNat 8490 then 'k'
  else c

/-- Whether the object key `key` selects the struct field with JSON name `name`. -/
def keyIs (name key : String) : Bool := key.data.map foldChar = name.data.map foldChar

/-- The decoder's name for the kind of a JSON value in a type error. -/
def kindName : Json → String
  | .null => "null"
  | .bool _ => "bool"
  | .num _ => "number"
  | .str _ => "string"
  | .arr _ => "array"
  | .obj _ => "object"

/-- Keep the first saved error. -/
def saveError (saved : Option LibError) (e : LibError) : Option LibError :=
  match saved with
  | some x => some x
  | none => some e

/-- Decode a value into an `int` field: the field value and the saved error afterwards. -/
def decodeInt (field : String) (cur : Int) (saved : Option LibError) :
    Json → Int × Option LibError
  | .null => (cur, saved)
  | .num lit =>
    match parseInt64 lit with
    | some n => (n, saved)
    | none => (cur, saveError saved (.unmarshalType ("number " ++ lit) "int" field))
  | v => (cur, saveError saved (.unmarshalType (kindName v) "int" field))

/-- Decode a value into a field of string kind. -/
def decodeString (goType field : String) (cur : String) (saved : Option LibError) :
    Json → String × Option LibError
  | .null => (cur, saved)
  | .str s => (s, saved)
  | v => (cur, saveError saved (.unmarshalType (kindName v) goType field))

/-- Decode the members of an object into a `DomainItem`. -/
def decodeItemFields : List (String × Json) → DomainItem → Option LibError →
    Except LibError (DomainItem × Option LibError)
  | [], item, saved => .ok (item, saved)
  | (k, v) :: rest, item, saved =>
    if keyIs "domainName" k then
      let r := decodeString "string" "DomainItem.domainsList.domainName" item.DomainName saved v
      decodeItemFields rest { item with DomainName := r.1 } r.2
    else if keyIs "action" k then
      let r := decodeString "brandalert.Action" "DomainItem.domainsList.action" item.Action saved v
      decodeItemFields rest { item with Action := r.1 } r.2
    else if keyIs "date" k then
      match Time.decodeFrom item.Date v with
      | (_, some e) => .error e
      | (t, none) => decodeItemFields rest { item with Date := t } saved
    else decodeItemFields rest item saved

/-- Decode the elements of the `domainsList` array; `store` holds the items of the backing
array from the index of the first element on. An object is decoded into the stored item, a
`null` leaves it as it is, any other value is a type error that leaves it as it is. -/
def decodeItems : List Json → List DomainItem → Option LibError →
    Except LibError (List DomainItem × Option LibError)
  | [], _, saved => .ok ([], saved)
  | v :: rest, store, saved =>
    let target : DomainItem := store.headD DomainItem.zero
    let first : Except LibError (DomainItem × Option LibError) :=
      match v with
      | .obj fields => decodeItemFields fields target saved
      | .null => .ok (target, saved)
      | w => .ok (target, saveError saved
          (.unmarshalType (kindName w) "brandalert.DomainItem" "apiResponse.domainsList"))
    match first with
    | .error e => .error e
    | .ok (item, saved2) =>
      match decodeItems rest store.tail saved2 with
      | .error e => .error e
      | .ok (items, saved3) => .ok (item :: items, saved3)

/-- Decode the members of the top-level object into the `apiResponse`; `store` is the backing
array of `DomainsList`. A `null` or an empty array for `domainsList` drops the backing array. -/
def decodeFields (g : String → String) : List (String × Json) → apiResponse →
    List DomainItem → Option LibError → Except LibError (apiResponse × Option LibError)
  | [], r, _, saved => .ok (r, saved)
  | (k, v) :: rest, r, store, saved =>
    if keyIs "domainsList" k then
      match v with
      | .null =>
        decodeFields g rest { r with BrandAlertResponse.DomainsList := none } [] saved
      | .arr [] =>
        decodeFields g rest { r with BrandAlertResponse.DomainsList := some [] } [] saved
      | .arr items =>
        match decodeItems items store saved with
        | .error e => .error e
        | .ok (list, saved2) =>
          decodeFields g rest { r with BrandAlertResponse.DomainsList := some list }
            (list ++ store.drop list.length) saved2
      | w => decodeFields g rest r store (saveError saved
          (.unmarshalType (kindName w) "[]brandalert.DomainItem" "apiResponse.domainsList"))
    else if keyIs "domainsCount" k then
      let d := decodeInt "apiResponse.domainsCount" r.BrandAlertResponse.DomainsCount saved v
      decodeFields g rest { r with BrandAlertResponse.DomainsCount := d.1 } store d.2
    else if keyIs "code" k then
      let d := decodeInt "apiResponse.code" r.ErrorMessage.Code saved v
      decodeFields g rest { r with ErrorMessage.Code := d.1 } store d.2
    else if keyIs "messages" k then
      match Messages.decodeFrom g r.ErrorMessage.Message v with
      | (_, some e) => .error e
      | (m, none) => decodeFields g rest { r with ErrorMessage.Message := m } store saved
    else decodeFields g rest r store saved

/-- What `Decode(&response)` does with the scanned value: the filled `apiResponse`, or the
error it returns. -/
def decodeApiResponse (g : String → String) : Json → Except LibError apiResponse
  | .null => .ok apiResponse.zero
  | .obj fields =>
    match decodeFields g fields apiResponse.zero [] none with
    | .error e => .error e
    | .ok (_, some e) => .error e
    | .ok (r, none) => .ok r
  | v => .error (.unmarshalType (kindName v) "brandalert.apiResponse" "")

/-! ## Request model and option modifiers -/

/-- The request struct for Brand Alert API (`models.go`, `brandAlertRequest`). -/
structure brandAlertRequest where
  APIKey : String
  IncludeSearchTerms : Option SearchTerms
  ExcludeSearchTerms : Option SearchTerms
  SinceDate : String
  Mode : String
  WithTypos : Bool
  Punycode : Bool
  ResponseFormat : String
deriving DecidableEq, Repr

/-- Option adds parameters to the query (`options.go`): a function mutating the request, or
the nil function value (`none`). -/
abbrev ReqOption := Option (brandAlertRequest → brandAlertRequest)

/-- OptionResponseFormat sets Response output format json | xml. -/
def OptionResponseFormat (outputFormat : String) : ReqOption :=
  some (fun v => { v with ResponseFormat := outputFormat })

/-- OptionSinceDate results in search through activities discovered since the given date. -/
def OptionSinceDate (date : Time) : ReqOption :=
  some (fun v => { v with SinceDate := date.Format })

/-- OptionWithTypos sets the withTypos option. -/
def OptionWithTypos (withTypos : Bool) : ReqOption :=
  some (fun v => { v with WithTypos := withTypos })

/-- OptionPunycode sets the punicode option. -/
def OptionPunycode (punycode : Bool) : ReqOption :=
  some (fun v => { v with Punycode := punycode })

/-- The loop `for _, opt := range opts { opt(request) }` of `request`; a nil function value
cannot be called, and `request` never reaches the loop with one. -/
def applyOptions (r : brandAlertRequest) : List ReqOption → brandAlertRequest
  | [] => r
  | some f :: rest => applyOptions (f r) rest
  | none :: rest => applyOptions r rest

/-! ## Validation -/

/-- The constant `limitOfSearchTerms` of `validateSearchTerms`. -/
def limitOfSearchTerms : Nat := 4

/-- validateSearchTerms validates the terms of search. -/
def validateSearchTerms (includeSearchTerms excludeSearchTerms : Option SearchTerms) :
    Option ArgError :=
  match includeSearchTerms with
  | none => some ⟨"includeSearchTerms", "must have between 1 and 4 items."⟩
  | some inc =>
    if inc.len = 0 ∨ inc.len > limitOfSearchTerms then
      some ⟨"includeSearchTerms", "must have between 1 and 4 items."⟩
    else
      match excludeSearchTerms with
      | some exc =>
        if exc.len > limitOfSearchTerms then
          some ⟨"excludeSearchTerms", "must have between 0 and 4 items."⟩
        else none
      | none => none

/-- validateOptions validates options. -/
def validateOptions : List ReqOption → Option ArgError
  | [] => none
  | none :: _ => some ⟨"Option", "can not be nil"⟩
  | some _ :: rest => validateOptions rest

/-! ## Errors -/

/-- Error returns error message as a string (`fmt.Sprintf("API error: [%d] %s", ..)`; `%s`
prints a `[]string` as its elements separated by single spaces inside brackets). -/
def ErrorMessage.Error (e : ErrorMessage) : String :=
  "API error: [" ++ toString e.Code ++ "] " ++ "[" ++ joinSpace (e.Message.getD []) ++ "]"

/-- The values of Go type `error` that the package returns. -/
inductive Error where
  | argError (e : ArgError)
  | errorMessage (e : ErrorMessage)
  | parseError (cause : LibError)
  | statusError (resp : HTTPResponse)
  | clientError (text : String)
deriving DecidableEq, Repr

/-- The text of an error. `parseError` is `fmt.Errorf("cannot parse response: %w", err)`,
`clientError` an error of `client.NewRequest` or `client.Do` with its text. -/
def Error.Error : Error → String
  | .argError e => e.Error
  | .errorMessage e => e.Error
  | .parseError cause => "cannot parse response: " ++ cause.Error
  | .statusError resp => "API failed with status code: " ++ toString resp.StatusCode
  | .clientError text => text

/-- Modelled from the spec: `checkResponse` of `client.go`, which is not among the sources.
The spec has RawData fail when "the final HTTP status code is not 2xx (reported as
`"API failed with status code: {code}"`)". -/
def checkResponse (r : HTTPResponse) : Option Error :=
  if 200 ≤ r.StatusCode ∧ r.StatusCode ≤ 299 then none else some (.statusError r)

/-! ## The HTTP client -/

/-- Outcome of `client.Do(ctx, req, &b)`: the response, the bytes written to the buffer and
the error. Without an error there is a response. -/
inductive DoResult where
  | ok (resp : HTTPResponse) (body : Bytes)
  | failed (resp : Option HTTPResponse) (body : Bytes) (err : String)
deriving DecidableEq, Repr

/-- The client behind the service: its API key, the error of `client.NewRequest` for a request
body (if any), the outcome of `client.Do` for a request body, and the way `fmt` prints a
float64 given by a number literal. -/
structure Env where
  apiKey : String
  NewRequest : Json → Option String
  Do : Json → DoResult
  formatFloat : String → String

/-! ## Request serialization -/

/-- A `*SearchTerms` as `json.Marshal` writes it when the pointer is not nil. -/
def marshalTerms : SearchTerms → Json
  | none => .null
  | some xs => .arr (xs.map Json.str)

/-- The document `json.Marshal(request)` writes, from the struct tags of `brandAlertRequest`:
members in field order, a member tagged `omitempty` left out when its field is a nil pointer,
an empty string or false. -/
def marshalRequest (r : brandAlertRequest) : Json :=
  .obj ([("apiKey", Json.str r.APIKey)]
    ++ (match r.IncludeSearchTerms with
        | none => []
        | some t => [("includeSearchTerms", marshalTerms t)])
    ++ (match r.ExcludeSearchTerms with
        | none => []
        | some t => [("excludeSearchTerms", marshalTerms t)])
    ++ (if r.SinceDate = "" then [] else [("sinceDate", Json.str r.SinceDate)])
    ++ (if r.Mode = "" then [] else [("mode", Json.str r.Mode)])
    ++ (if r.WithTypos then [("withTypos", Json.bool true)] else [])
    ++ (if r.Punycode then [("punycode", Json.bool true)] else [])
    ++ (if r.ResponseFormat = "" then [] else [("responseFormat", Json.str r.ResponseFormat)]))

/-! ## The service -/

/-- The request struct that `request` builds before serializing it. -/
def buildRequest (apiKey : String) (includeSearchTerms excludeSearchTerms : Option SearchTerms)
    (purchase : Bool) (opts : List ReqOption) : brandAlertRequest :=
  let request : brandAlertRequest :=
    ⟨apiKey, includeSearchTerms, excludeSearchTerms, "", "preview", false, true, "json"⟩
  let request := if purchase then { request with Mode := "purchase" } else request
  applyOptions request opts

/-- Results of `request`, with the request bodies handed to `client.Do`. -/
structure RequestResult where
  sent : List Json
  resp : Option Response
  err : Option Error

/-- The method `request`: returns intermediate API response for further actions. -/
def request (env : Env) (includeSearchTerms excludeSearchTerms : Option SearchTerms)
    (purchase : Bool) (opts : List ReqOption) : RequestResult :=
  match validateSearchTerms includeSearchTerms excludeSearchTerms with
  | some e => ⟨[], none, some (.argError e)⟩
  | none =>
    match validateOptions opts with
    | some e => ⟨[], none, some (.argError e)⟩
    | none =>
      let requestBody := marshalRequest
        (buildRequest env.apiKey includeSearchTerms excludeSearchTerms purchase opts)
      match env.NewRequest requestBody with
      | some e => ⟨[], none, some (.clientError e)⟩
      | none =>
        match env.Do requestBody with
        | .failed resp b err => ⟨[requestBody], some ⟨resp, b⟩, some (.clientError err)⟩
        | .ok resp b => ⟨[requestBody], some ⟨some resp, b⟩, none⟩

/-- The function `parse`: parses raw Brand Alert API response. -/
def parse (g : String → String) (raw : Bytes) : Except Error apiResponse :=
  match decodeValue raw with
  | .error e => .error (.parseError e)
  | .ok v =>
    match decodeApiResponse g v with
    | .error e => .error (.parseError e)
    | .ok r => .ok r

/-- Results of `Purchase`, with the request bodies handed to `client.Do`. -/
structure PurchaseResult where
  sent : List Json
  brandAlertResponse : Option BrandAlertResponse
  resp : Option Response
  err : Option Error

/-- Results of `Preview`, with the request bodies handed to `client.Do`. -/
structure PreviewResult where
  sent : List Json
  domainsCount : Int
  resp : Option Response
  err : Option Error

/-- Purchase returns parsed Brand Alert API response. -/
def Purchase (env : Env) (includeSearchTerms excludeSearchTerms : Option SearchTerms)
    (opts : List ReqOption) : PurchaseResult :=
  let optsJSON := opts ++ [OptionResponseFormat "json"]
  let r := request env includeSearchTerms excludeSearchTerms true optsJSON
  match r.err, r.resp with
  | some err, resp => ⟨r.sent, none, resp, some err⟩
  | none, none => ⟨r.sent, none, none, none⟩
  | none, some resp =>
    match parse env.formatFloat resp.Body with
    | .error err => ⟨r.sent, none, some resp, some err⟩
    | .ok brandAlertResp =>
      if brandAlertResp.ErrorMessage.Message ≠ none ∨ brandAlertResp.ErrorMessage.Code ≠ 0 then
        ⟨r.sent, none, none, some (.errorMessage
          ⟨brandAlertResp.ErrorMessage.Code, brandAlertResp.ErrorMessage.Message⟩)⟩
      else ⟨r.sent, some brandAlertResp.BrandAlertResponse, some resp, none⟩

/-- Preview returns only the number of domains. No credits deducted. -/
def Preview (env : Env) (includeSearchTerms excludeSearchTerms : Option SearchTerms)
    (opts : List ReqOption) : PreviewResult :=
  let optsJSON := opts ++ [OptionResponseFormat "json"]
  let r := request env includeSearchTerms excludeSearchTerms false optsJSON
  match r.err, r.resp with
  | some err, resp => ⟨r.sent, 0, resp, some err⟩
  | none, none => ⟨r.sent, 0, none, none⟩
  | none, some resp =>
    match parse env.formatFloat resp.Body with
    | .error err => ⟨r.sent, 0, some resp, some err⟩
    | .ok brandAlertResp =>
      if brandAlertResp.ErrorMessage.Message ≠ none ∨ brandAlertResp.ErrorMessage.Code ≠ 0 then
        ⟨r.sent, 0, none, some (.errorMessage
          ⟨brandAlertResp.ErrorMessage.Code, brandAlertResp.ErrorMessage.Message⟩)⟩
      else ⟨r.sent, brandAlertResp.BrandAlertResponse.DomainsCount, some resp, none⟩

/-- RawData returns raw Brand Alert API response as the Response struct with Body saved as a
byte slice. -/
def RawData (env : Env) (includeSearchTerms excludeSearchTerms : Option SearchTerms)
    (opts : List ReqOption) : RequestResult :=
  let r := request env includeSearchTerms excludeSearchTerms true opts
  match r.err, r.resp with
  | some err, resp => ⟨r.sent, resp, some err⟩
  | none, none => ⟨r.sent, none, none⟩
  | none, some resp =>
    match resp.Response with
    | none => ⟨r.sent, some resp, none⟩
    | some httpResp =>
      match checkResponse httpResp with
      | some respErr => ⟨r.sent, some resp, some respErr⟩
      | none => ⟨r.sent, some resp, none⟩

/-! ## Callers and examples -/

/-- The modifiers a caller outside the package can pass besides nil: the request struct is
unexported, so such a caller can only use the four constructors of `options.go`. -/
def IsStdOption (o : ReqOption) : Prop :=
  (∃ v, o = OptionResponseFormat v) ∨ (∃ d, o = OptionSinceDate d)
    ∨ (∃ b, o = OptionWithTypos b) ∨ (∃ b, o = OptionPunycode b)

/-- The client used in the examples: every request is built and answered with `o`. -/
def exampleEnv (o : DoResult) : Env := ⟨"at_key", fun _ => none, fun _ => o, fun lit => lit⟩

/-! ## Shared lemmas -/

theorem request_of_invalid_terms (env : Env) (inc exc : Option SearchTerms) (purchase : Bool)
    (opts : List ReqOption) (a : ArgError) (h : validateSearchTerms inc exc = some a) :
    request env inc exc purchase opts = ⟨[], none, some (.argError a)⟩ := by
  simp [request, h]

theorem request_of_invalid_options (env : Env) (inc exc : Option SearchTerms) (purchase : Bool)
    (opts : List ReqOption) (a : ArgError) (h : validateSearchTerms inc exc = none)
    (ho : validateOptions opts = some a) :
    request env inc exc purchase opts = ⟨[], none, some (.argError a)⟩ := by
  simp [request, h, ho]

theorem Purchase_of_request_error (env : Env) (inc exc : Option SearchTerms)
    (opts : List ReqOption) (s : List Json) (r : Option Response) (e : Error)
    (h : request env inc exc true (opts ++ [OptionResponseFormat "json"]) = ⟨s, r, some e⟩) :
    Purchase env inc exc opts = ⟨s, none, r, some e⟩ := by
  simp [Purchase, h]

theorem Preview_of_request_error (env : Env) (inc exc : Option SearchTerms)
    (opts : List ReqOption) (s : List Json) (r : Option Response) (e : Error)
    (h : request env inc exc false (opts ++ [OptionResponseFormat "json"]) = ⟨s, r, some e⟩) :
    Preview env inc exc opts = ⟨s, 0, r, some e⟩ := by
  simp [Preview, h]

theorem RawData_of_request_error (env : Env) (inc exc : Option SearchTerms)
    (opts : List ReqOption) (s : List Json) (r : Option Response) (e : Error)
    (h : request env inc exc true opts = ⟨s, r, some e⟩) :
    RawData env inc exc opts = ⟨s, r, some e⟩ := by
  simp [RawData, h]

theorem validateOptions_of_nil_mem (opts : List ReqOption) (h : none ∈ opts) :
    validateOptions opts = some ⟨"Option", "can not be nil"⟩ := by
  induction opts with
  | nil => cases h
  | cons o rest ih =>
    cases o with
    | none => rfl
    | some f =>
      have hmem : none ∈ rest := by
        cases h with
        | tail _ h2 => exact h2
      simpa [validateOptions] using ih hmem

theorem validateOptions_eq_none_iff (opts : List ReqOption) :
    validateOptions opts = none ↔ none ∉ opts := by
  induction opts with
  | nil => simp [validateOptions]
  | cons o rest ih =>
    cases o with
    | none => simp [validateOptions]
    | some f => simp [validateOptions, ih]

/-! ## Validation of the search terms and of the modifiers -/

/-- C1: when the include set is nil, empty or longer than four items, `validateSearchTerms`
returns the `includeSearchTerms` argument error with the stated text, whatever the exclude set
is, and `request`, `Purchase`, `Preview` and `RawData` return that error, no response and send
nothing, whatever the modifiers are. -/
theorem include_terms_rejected (env : Env) (inc exc : Option SearchTerms)
    (opts : List ReqOption)
    (h : inc = none ∨ ∃ t, inc = some t ∧ (t.len = 0 ∨ 4 < t.len)) :
    validateSearchTerms inc exc
        = some ⟨"includeSearchTerms", "must have between 1 and 4 items."⟩
      ∧ ArgError.Error ⟨"includeSearchTerms", "must have between 1 and 4 items."⟩
        = "invalid argument: \"includeSearchTerms\" must have between 1 and 4 items."
      ∧ (∀ purchase, request env inc exc purchase opts
          = ⟨[], none, some (.argError
              ⟨"includeSearchTerms", "must have between 1 and 4 items."⟩)⟩)
      ∧ Purchase env inc exc opts
          = ⟨[], none, none, some (.argError
              ⟨"includeSearchTerms", "must have between 1 and 4 items."⟩)⟩
      ∧ Preview env inc exc opts
          = ⟨[], 0, none, some (.argError
              ⟨"includeSearchTerms", "must have between 1 and 4 items."⟩)⟩
      ∧ RawData env inc exc opts
          = ⟨[], none, some (.argError
              ⟨"includeSearchTerms", "must have between 1 and 4 items."⟩)⟩ := by
  have hv : validateSearchTerms inc exc
      = some ⟨"includeSearchTerms", "must have between 1 and 4 items."⟩ := by
    rcases h with h | ⟨t, ht, hlen⟩
    · subst h; rfl
    · subst ht
      have : t.len = 0 ∨ t.len > limitOfSearchTerms := by
        simpa [limitOfSearchTerms] using hlen
      simp [validateSearchTerms, this]
  refine ⟨hv, by decide, fun purchase => request_of_invalid_terms env inc exc purchase opts _ hv,
    ?_, ?_, ?_⟩
  · exact Purchase_of_request_error env inc exc opts _ _ _
      (request_of_invalid_terms env inc exc true _ _ hv)
  · exact Preview_of_request_error env inc exc opts _ _ _
      (request_of_invalid_terms env inc exc false _ _ hv)
  · exact RawData_of_request_error env inc exc opts _ _ _
      (request_of_invalid_terms env inc exc true _ _ hv)

/-- Witness of C1 at the empty include set with five exclude terms and a nil modifier. -/
theorem include_terms_rejected_witness :
    validateSearchTerms (some (some [])) (some (some ["1", "2", "3", "4", "5"]))
        = some ⟨"includeSearchTerms", "must have between 1 and 4 items."⟩ :=
  (include_terms_rejected ⟨"k", fun _ => none, fun _ => .ok ⟨200⟩ [], id⟩
    (some (some [])) (some (some ["1", "2", "3", "4", "5"])) [none]
    (Or.inr ⟨some [], rfl, Or.inl rfl⟩)).1

/-- C2: for an include set of one to four items, `validateSearchTerms` returns an error exactly
when the exclude set is present with more than four items; the error is then the
`excludeSearchTerms` argument error with the stated text; an absent exclude set and one of at
most four items is accepted. -/
theorem exclude_terms_checked (t : SearchTerms) (exc : Option SearchTerms)
    (h1 : 1 ≤ t.len) (h4 : t.len ≤ 4) :
    (validateSearchTerms (some t) exc ≠ none ↔ ∃ e, exc = some e ∧ 4 < e.len)
      ∧ (validateSearchTerms (some t) exc ≠ none → validateSearchTerms (some t) exc
          = some ⟨"excludeSearchTerms", "must have between 0 and 4 items."⟩)
      ∧ ArgError.Error ⟨"excludeSearchTerms", "must have between 0 and 4 items."⟩
          = "invalid argument: \"excludeSearchTerms\" must have between 0 and 4 items."
      ∧ validateSearchTerms (some t) none = none
      ∧ (∀ e : SearchTerms, e.len ≤ 4 → validateSearchTerms (some t) (some e) = none) := by
  have hinc : ¬ (t.len = 0 ∨ t.len > limitOfSearchTerms) := by
    simp only [limitOfSearchTerms]; omega
  refine ⟨?_, ?_, by decide, ?_, ?_⟩
  · cases exc with
    | none => simp [validateSearchTerms, hinc]
    | some e =>
      by_cases he : e.len > limitOfSearchTerms
      · simp [validateSearchTerms, hinc, he]
        simpa [limitOfSearchTerms] using he
      · simp [validateSearchTerms, hinc, he]
        simpa [limitOfSearchTerms] using he
  · cases exc with
    | none => simp [validateSearchTerms, hinc]
    | some e =>
      by_cases he : e.len > limitOfSearchTerms
      · simp [validateSearchTerms, hinc, he]
      · simp [validateSearchTerms, hinc, he]
  · simp [validateSearchTerms, hinc]
  · intro e he
    have : ¬ e.len > limitOfSearchTerms := by simp only [limitOfSearchTerms]; omega
    simp [validateSearchTerms, hinc, this]

/-- Witness of C2 at the include set of the tests. -/
theorem exclude_terms_checked_witness :
    validateSearchTerms (some (some ["whois"])) (some (some ["1", "2", "3", "4", "5"])) ≠ none
      ↔ ∃ e, some (some ["1", "2", "3", "4", "5"]) = some e ∧ 4 < StringSlice.len e :=
  (exclude_terms_checked (some ["whois"]) (some (some ["1", "2", "3", "4", "5"]))
    (by decide) (by decide)).1

/-- C3: when the modifier list holds a nil modifier, `request`, `Purchase`, `Preview` and
`RawData` return an argument error, no response, and send nothing; when the term sets are
valid the error is the `Option` argument error "can not be nil". -/
theorem nil_option_rejected (env : Env) (inc exc : Option SearchTerms)
    (opts : List ReqOption) (h : none ∈ opts) :
    ∃ a : ArgError,
      (validateSearchTerms inc exc = none → a = ⟨"Option", "can not be nil"⟩)
      ∧ (∀ purchase, request env inc exc purchase opts = ⟨[], none, some (.argError a)⟩)
      ∧ Purchase env inc exc opts = ⟨[], none, none, some (.argError a)⟩
      ∧ Preview env inc exc opts = ⟨[], 0, none, some (.argError a)⟩
      ∧ RawData env inc exc opts = ⟨[], none, some (.argError a)⟩ := by
  have hj : none ∈ opts ++ [OptionResponseFormat "json"] := List.mem_append_left _ h
  cases hv : validateSearchTerms inc exc with
  | some a =>
    refine ⟨a, (fun hc => by cases hc), fun p => request_of_invalid_terms env inc exc p opts a hv,
      ?_, ?_, ?_⟩
    · exact Purchase_of_request_error env inc exc opts _ _ _
        (request_of_invalid_terms env inc exc true _ a hv)
    · exact Preview_of_request_error env inc exc opts _ _ _
        (request_of_invalid_terms env inc exc false _ a hv)
    · exact RawData_of_request_error env inc exc opts _ _ _
        (request_of_invalid_terms env inc exc true _ a hv)
  | none =>
    refine ⟨⟨"Option", "can not be nil"⟩, fun _ => rfl,
      fun p => request_of_invalid_options env inc exc p opts _ hv
        (validateOptions_of_nil_mem opts h), ?_, ?_, ?_⟩
    · exact Purchase_of_request_error env inc exc opts _ _ _
        (request_of_invalid_options env inc exc true _ _ hv (validateOptions_of_nil_mem _ hj))
    · exact Preview_of_request_error env inc exc opts _ _ _
        (request_of_invalid_options env inc exc false _ _ hv (validateOptions_of_nil_mem _ hj))
    · exact RawData_of_request_error env inc exc opts _ _ _
        (request_of_invalid_options env inc exc true _ _ hv (validateOptions_of_nil_mem _ h))

/-- Witness of C3: a nil modifier after a format modifier, with valid term sets. -/
theorem nil_option_rejected_witness :
    ∃ a : ArgError,
      (validateSearchTerms (some (some ["whois"])) none = none
        → a = ⟨"Option", "can not be nil"⟩)
      ∧ (∀ purchase, request ⟨"k", fun _ => none, fun _ => .ok ⟨200⟩ [], id⟩
          (some (some ["whois"])) none purchase [OptionResponseFormat "xml", none]
          = ⟨[], none, some (.argError a)⟩)
      ∧ Purchase ⟨"k", fun _ => none, fun _ => .ok ⟨200⟩ [], id⟩
          (some (some ["whois"])) none [OptionResponseFormat "xml", none]
          = ⟨[], none, none, some (.argError a)⟩
      ∧ Preview ⟨"k", fun _ => none, fun _ => .ok ⟨200⟩ [], id⟩
          (some (some ["whois"])) none [OptionResponseFormat "xml", none]
          = ⟨[], 0, none, some (.argError a)⟩
      ∧ RawData ⟨"k", fun _ => none, fun _ => .ok ⟨200⟩ [], id⟩
          (some (some ["whois"])) none [OptionResponseFormat "xml", none]
          = ⟨[], none, some (.argError a)⟩ :=
  nil_option_rejected ⟨"k", fun _ => none, fun _ => .ok ⟨200⟩ [], id⟩
    (some (some ["whois"])) none [OptionResponseFormat "xml", none] (by simp)

/-! ## Classification of a decoded response -/

theorem request_cases (env : Env) (inc exc : Option SearchTerms) (purchase : Bool)
    (opts : List ReqOption) :
    (∃ a, request env inc exc purchase opts = ⟨[], none, some (.argError a)⟩)
      ∨ (∃ t, request env inc exc purchase opts = ⟨[], none, some (.clientError t)⟩)
      ∨ (∃ d r b t, request env inc exc purchase opts
          = ⟨[d], some ⟨r, b⟩, some (.clientError t)⟩)
      ∨ ∃ d h b, request env inc exc purchase opts = ⟨[d], some ⟨some h, b⟩, none⟩ := by
  cases hv : validateSearchTerms inc exc with
  | some a => exact Or.inl ⟨a, by simp [request, hv]⟩
  | none =>
    cases ho : validateOptions opts with
    | some a => exact Or.inl ⟨a, by simp [request, hv, ho]⟩
    | none =>
      cases hn : env.NewRequest
          (marshalRequest (buildRequest env.apiKey inc exc purchase opts)) with
      | some t => exact Or.inr (Or.inl ⟨t, by simp [request, hv, ho, hn]⟩)
      | none =>
        cases hd : env.Do
            (marshalRequest (buildRequest env.apiKey inc exc purchase opts)) with
        | failed r b t =>
          exact Or.inr (Or.inr (Or.inl ⟨marshalRequest
            (buildRequest env.apiKey inc exc purchase opts), r, b, t,
            by simp [request, hv, ho, hn, hd]⟩))
        | ok h b =>
          exact Or.inr (Or.inr (Or.inr ⟨marshalRequest
            (buildRequest env.apiKey inc exc purchase opts), h, b,
            by simp [request, hv, ho, hn, hd]⟩))

theorem Purchase_of_request_ok (env : Env) (inc exc : Option SearchTerms)
    (opts : List ReqOption) (s : List Json) (rsp : Response)
    (h : request env inc exc true (opts ++ [OptionResponseFormat "json"]) = ⟨s, some rsp, none⟩) :
    Purchase env inc exc opts =
      match parse env.formatFloat rsp.Body with
      | .error err => ⟨s, none, some rsp, some err⟩
      | .ok r =>
        if r.ErrorMessage.Message ≠ none ∨ r.ErrorMessage.Code ≠ 0 then
          ⟨s, none, none, some (.errorMessage ⟨r.ErrorMessage.Code, r.ErrorMessage.Message⟩)⟩
        else ⟨s, some r.BrandAlertResponse, some rsp, none⟩ := by
  simp [Purchase, h]

theorem Preview_of_request_ok (env : Env) (inc exc : Option SearchTerms)
    (opts : List ReqOption) (s : List Json) (rsp : Response)
    (h : request env inc exc false (opts ++ [OptionResponseFormat "json"]) = ⟨s, some rsp, none⟩) :
    Preview env inc exc opts =
      match parse env.formatFloat rsp.Body with
      | .error err => ⟨s, 0, some rsp, some err⟩
      | .ok r =>
        if r.ErrorMessage.Message ≠ none ∨ r.ErrorMessage.Code ≠ 0 then
          ⟨s, 0, none, some (.errorMessage ⟨r.ErrorMessage.Code, r.ErrorMessage.Message⟩)⟩
        else ⟨s, r.BrandAlertResponse.DomainsCount, some rsp, none⟩ := by
  simp [Preview, h]

/-- C4, counterexample: the body `{"messages":[]}` decodes with code 0 and an empty messages
sequence, and `Purchase` and `Preview` still fail with an `ErrorMessage` instead of returning
the payload. -/
theorem empty_messages_is_api_error :
    parse (fun lit => lit) (asciiBytes "\x7b\"messages\":[]\x7d")
        = .ok ⟨⟨none, 0⟩, ⟨0, some []⟩⟩
      ∧ (Purchase (exampleEnv (.ok ⟨200⟩ (asciiBytes "\x7b\"messages\":[]\x7d")))
          (some (some ["whois"])) none []).err = some (.errorMessage ⟨0, some []⟩)
      ∧ (Purchase (exampleEnv (.ok ⟨200⟩ (asciiBytes "\x7b\"messages\":[]\x7d")))
          (some (some ["whois"])) none []).brandAlertResponse = none
      ∧ (Preview (exampleEnv (.ok ⟨200⟩ (asciiBytes "\x7b\"messages\":[]\x7d")))
          (some (some ["whois"])) none []).err = some (.errorMessage ⟨0, some []⟩) := by
  refine ⟨rfl, rfl, rfl, rfl⟩

/-- C4, amended: when `request` succeeded and the body decodes to the envelope `r`, `Purchase`
and `Preview` fail with an `ErrorMessage` exactly when the decoded `Message` is not nil (the
`messages` key was present and not `null`) or the decoded code is not zero; when the code is 0
and `Message` is nil they return the payload, respectively its count, with no error. -/
theorem api_error_iff_message_present (env : Env) (inc exc : Option SearchTerms)
    (opts : List ReqOption) (s1 s2 : List Json) (rsp : Response) (r : apiResponse)
    (h1 : request env inc exc true (opts ++ [OptionResponseFormat "json"])
      = ⟨s1, some rsp, none⟩)
    (h2 : request env inc exc false (opts ++ [OptionResponseFormat "json"])
      = ⟨s2, some rsp, none⟩)
    (hp : parse env.formatFloat rsp.Body = .ok r) :
    ((∃ e, (Purchase env inc exc opts).err = some (.errorMessage e))
        ↔ r.ErrorMessage.Message ≠ none ∨ r.ErrorMessage.Code ≠ 0)
      ∧ ((∃ e, (Preview env inc exc opts).err = some (.errorMessage e))
        ↔ r.ErrorMessage.Message ≠ none ∨ r.ErrorMessage.Code ≠ 0)
      ∧ (r.ErrorMessage.Message = none ∧ r.ErrorMessage.Code = 0 →
          Purchase env inc exc opts = ⟨s1, some r.BrandAlertResponse, some rsp, none⟩
          ∧ Preview env inc exc opts
            = ⟨s2, r.BrandAlertResponse.DomainsCount, some rsp, none⟩) := by
  rw [Purchase_of_request_ok env inc exc opts s1 rsp h1,
    Preview_of_request_ok env inc exc opts s2 rsp h2, hp]
  by_cases hc : r.ErrorMessage.Message ≠ none ∨ r.ErrorMessage.Code ≠ 0
  · simp only [hc, if_true]
    refine ⟨by simp, by simp, ?_⟩
    rintro ⟨hm, hcode⟩
    rcases hc with hc | hc
    · exact absurd hm hc
    · exact absurd hcode hc
  · simp only [hc, if_false]
    refine ⟨by simp, by simp, by simp⟩

/-- Witness of C4 (amended) at the success body of the tests. -/
theorem api_error_iff_message_present_witness :
    (∃ e, (Purchase (exampleEnv (.ok ⟨200⟩ (asciiBytes "\x7b\"domainsCount\":4\x7d")))
        (some (some ["whois"])) none []).err = some (.errorMessage e))
      ↔ (⟨⟨none, 4⟩, ⟨0, none⟩⟩ : apiResponse).ErrorMessage.Message ≠ none
        ∨ (⟨⟨none, 4⟩, ⟨0, none⟩⟩ : apiResponse).ErrorMessage.Code ≠ 0 :=
  (api_error_iff_message_present
    (exampleEnv (.ok ⟨200⟩ (asciiBytes "\x7b\"domainsCount\":4\x7d")))
    (some (some ["whois"])) none [] _ _
    ⟨some ⟨200⟩, asciiBytes "\x7b\"domainsCount\":4\x7d"⟩ ⟨⟨none, 4⟩, ⟨0, none⟩⟩
    rfl rfl rfl).1

/-- C5: `Purchase` returns a payload exactly when it returns no error, `Preview` returns count
0 with every error, and when the error is an `ErrorMessage` the response handle is nil and the
error carries the code and messages decoded from the captured body. -/
theorem payload_iff_no_error (env : Env) (inc exc : Option SearchTerms)
    (opts : List ReqOption) :
    ((Purchase env inc exc opts).brandAlertResponse ≠ none
        ↔ (Purchase env inc exc opts).err = none)
      ∧ ((Preview env inc exc opts).err ≠ none → (Preview env inc exc opts).domainsCount = 0)
      ∧ (∀ e, (Purchase env inc exc opts).err = some (.errorMessage e) →
          (Purchase env inc exc opts).resp = none
          ∧ ∃ rsp r, (request env inc exc true (opts ++ [OptionResponseFormat "json"])).resp
                = some rsp
              ∧ parse env.formatFloat rsp.Body = .ok r
              ∧ e = ⟨r.ErrorMessage.Code, r.ErrorMessage.Message⟩)
      ∧ (∀ e, (Preview env inc exc opts).err = some (.errorMessage e) →
          (Preview env inc exc opts).resp = none
          ∧ ∃ rsp r, (request env inc exc false (opts ++ [OptionResponseFormat "json"])).resp
                = some rsp
              ∧ parse env.formatFloat rsp.Body = .ok r
              ∧ e = ⟨r.ErrorMessage.Code, r.ErrorMessage.Message⟩) := by
  refine ⟨?_, ?_, ?_, ?_⟩
  · rcases request_cases env inc exc true (opts ++ [OptionResponseFormat "json"]) with
      ⟨a, hq⟩ | ⟨t, hq⟩ | ⟨d, r, b, t, hq⟩ | ⟨d, h, b, hq⟩
    · simp [Purchase, hq]
    · simp [Purchase, hq]
    · simp [Purchase, hq]
    · rw [Purchase_of_request_ok env inc exc opts _ _ hq]
      cases parse env.formatFloat (Response.mk (some h) b).Body with
      | error err => simp
      | ok r => by_cases hc : r.ErrorMessage.Message ≠ none ∨ r.ErrorMessage.Code ≠ 0 <;>
          simp [hc]
  · rcases request_cases env inc exc false (opts ++ [OptionResponseFormat "json"]) with
      ⟨a, hq⟩ | ⟨t, hq⟩ | ⟨d, r, b, t, hq⟩ | ⟨d, h, b, hq⟩
    · simp [Preview, hq]
    · simp [Preview, hq]
    · simp [Preview, hq]
    · rw [Preview_of_request_ok env inc exc opts _ _ hq]
      cases parse env.formatFloat (Response.mk (some h) b).Body with
      | error err => simp
      | ok r => by_cases hc : r.ErrorMessage.Message ≠ none ∨ r.ErrorMessage.Code ≠ 0 <;>
          simp [hc]
  · intro e
    rcases request_cases env inc exc true (opts ++ [OptionResponseFormat "json"]) with
      ⟨a, hq⟩ | ⟨t, hq⟩ | ⟨d, r, b, t, hq⟩ | ⟨d, h, b, hq⟩
    · simp [Purchase, hq]
    · simp [Purchase, hq]
    · simp [Purchase, hq]
    · rw [Purchase_of_request_ok env inc exc opts _ _ hq, hq]
      cases hp : parse env.formatFloat (Response.mk (some h) b).Body with
      | error err =>
        intro hcontra
        exfalso
        simp only [Option.some.injEq] at hcontra
        revert hp
        unfold parse
        split
        · intro hp; cases hp; cases hcontra
        · split
          · intro hp; cases hp; cases hcontra
          · intro hp; cases hp
      | ok r =>
        by_cases hc : r.ErrorMessage.Message ≠ none ∨ r.ErrorMessage.Code ≠ 0
        · simp only [hc, if_true, Option.some.injEq, Error.errorMessage.injEq]
          intro he
          exact ⟨trivial, _, r, rfl, hp, he.symm⟩
        · simp [hc]
  · intro e
    rcases request_cases env inc exc false (opts ++ [OptionResponseFormat "json"]) with
      ⟨a, hq⟩ | ⟨t, hq⟩ | ⟨d, r, b, t, hq⟩ | ⟨d, h, b, hq⟩
    · simp [Preview, hq]
    · simp [Preview, hq]
    · simp [Preview, hq]
    · rw [Preview_of_request_ok env inc exc opts _ _ hq, hq]
      cases hp : parse env.formatFloat (Response.mk (some h) b).Body with
      | error err =>
        intro hcontra
        exfalso
        simp only [Option.some.injEq] at hcontra
        revert hp
        unfold parse
        split
        · intro hp; cases hp; cases hcontra
        · split
          · intro hp; cases hp; cases hcontra
          · intro hp; cases hp
      | ok r =>
        by_cases hc : r.ErrorMessage.Message ≠ none ∨ r.ErrorMessage.Code ≠ 0
        · simp only [hc, if_true, Option.some.injEq, Error.errorMessage.injEq]
          intro he
          exact ⟨trivial, _, r, rfl, hp, he.symm⟩
        · simp [hc]

/-! ## The text of an `ErrorMessage` -/

theorem foldl_append_acc (xs : List String) (acc : String) :
    xs.foldl (fun a b => a ++ b) acc = acc ++ xs.foldl (fun a b => a ++ b) "" := by
  induction xs generalizing acc with
  | nil => simp
  | cons x rest ih =>
    simp only [List.foldl_cons]
    rw [ih (acc ++ x), ih ("" ++ x), String.append_assoc]
    simp

theorem join_cons (x : String) (xs : List String) :
    String.join (x :: xs) = x ++ String.join xs := by
  simp only [String.join, List.foldl_cons]
  rw [foldl_append_acc]
  simp

theorem intercalate_go_eq (sep : String) (xs : List String) (acc : String) :
    String.intercalate.go acc sep xs = acc ++ String.join (xs.map (fun x => sep ++ x)) := by
  induction xs generalizing acc with
  | nil => simp [String.intercalate.go, String.join]
  | cons x rest ih =>
    simp only [String.intercalate.go, ih, List.map_cons, join_cons,
      String.append_assoc]

theorem joinSpace_cons (x : String) (xs : List String) :
    joinSpace (x :: xs) = x ++ String.join (xs.map (fun y => " " ++ y)) := by
  induction xs generalizing x with
  | nil => simp [joinSpace, String.join]
  | cons y rest ih =>
    simp only [joinSpace, ih, List.map_cons, join_cons, String.append_assoc]

theorem joinSpace_eq_intercalate (xs : List String) :
    joinSpace xs = " ".intercalate xs := by
  cases xs with
  | nil => rfl
  | cons x rest => rw [joinSpace_cons, String.intercalate, intercalate_go_eq]

/-- C6, counterexample: for code 1 and the two messages `a`, `b` the text is
`API error: [1] [a b]`, the messages separated by a space, and not `API error: [1] [a, b]`. -/
theorem error_text_not_comma_joined :
    ErrorMessage.Error ⟨1, some ["a", "b"]⟩ = "API error: [1] [a b]"
      ∧ ErrorMessage.Error ⟨1, some ["a", "b"]⟩
        ≠ "API error: [" ++ toString (1 : Int) ++ "] [" ++ ", ".intercalate ["a", "b"] ++ "]" := by
  decide

/-- C6, amended: the text of an `ErrorMessage` with code `c` and messages `m1..mn` is
`API error: [`, the decimal code, `] [`, the messages joined by one space, `]`; with at most
one message this is also the comma-joined form; for code 499 and the single message
`Test error message.` it is `API error: [499] [Test error message.]`. -/
theorem error_text_space_joined (c : Int) (ms : Messages) :
    ErrorMessage.Error ⟨c, ms⟩
        = "API error: [" ++ toString c ++ "] [" ++ " ".intercalate (ms.getD []) ++ "]"
      ∧ ((ms.getD []).length ≤ 1 → ErrorMessage.Error ⟨c, ms⟩
        = "API error: [" ++ toString c ++ "] [" ++ ", ".intercalate (ms.getD []) ++ "]")
      ∧ ErrorMessage.Error ⟨499, some ["Test error message."]⟩
        = "API error: [499] [Test error message.]" := by
  have h1 : ErrorMessage.Error ⟨c, ms⟩
      = "API error: [" ++ toString c ++ "] [" ++ " ".intercalate (ms.getD []) ++ "]" := by
    rw [show "] [" = "] " ++ "[" by decide]
    simp only [ErrorMessage.Error, joinSpace_eq_intercalate, String.append_assoc]
  refine ⟨h1, ?_, by decide⟩
  intro hlen
  rw [h1]
  match hm : ms.getD [] with
  | [] => rfl
  | [x] => rfl
  | x :: y :: rest => rw [hm] at hlen; simp at hlen

/-- Witness of C6 (amended) at the error of the tests. -/
theorem error_text_space_joined_witness :
    ErrorMessage.Error ⟨499, some ["Test error message."]⟩
      = "API error: [" ++ toString (499 : Int) ++ "] ["
        ++ ", ".intercalate ((some ["Test error message."] : Messages).getD []) ++ "]" :=
  (error_text_space_joined 499 (some ["Test error message."])).2.1 (by decide)

/-! ## Scalar and array forms of `messages` -/

/-- C7: for every string `x`, `UnmarshalJSON` of `Messages` stores the one-element sequence
`[x]` both for the scalar JSON string `x` and for the array `[x]`; the two error envelopes with
the same code decode alike, with `Message = [x]`, and so render to the same error text. The
two error bodies of the tests decode to the same envelope. -/
theorem scalar_and_array_messages_agree (g : String → String) (x c : String) :
    Messages.decodeFrom g none (.str x) = (some [x], none)
      ∧ Messages.decodeFrom g none (.arr [.str x]) = (some [x], none)
      ∧ decodeApiResponse g (.obj [("code", .num c), ("messages", .str x)])
        = decodeApiResponse g (.obj [("code", .num c), ("messages", .arr [.str x])])
      ∧ (∀ r, decodeApiResponse g (.obj [("code", .num c), ("messages", .str x)]) = .ok r →
          r.ErrorMessage.Message = some [x])
      ∧ parse g (asciiBytes "\x7b\"code\":499,\"messages\":\"Test error message.\"\x7d")
        = .ok ⟨⟨none, 0⟩, ⟨499, some ["Test error message."]⟩⟩
      ∧ parse g (asciiBytes "\x7b\"code\":499,\"messages\":[\"Test error message.\"]\x7d")
        = .ok ⟨⟨none, 0⟩, ⟨499, some ["Test error message."]⟩⟩ := by
  have k1 : keyIs "domainsList" "code" = false := by decide
  have k2 : keyIs "domainsCount" "code" = false := by decide
  have k3 : keyIs "code" "code" = true := by decide
  have k4 : keyIs "domainsList" "messages" = false := by decide
  have k5 : keyIs "domainsCount" "messages" = false := by decide
  have k6 : keyIs "code" "messages" = false := by decide
  have k7 : keyIs "messages" "messages" = true := by decide
  have m1 : Messages.decodeFrom g none (.str x) = (some [x], none) := by
    simp [Messages.decodeFrom, stringsOfValue, interfaceError, sprintS]
  have m2 : Messages.decodeFrom g none (.arr [.str x]) = (some [x], none) := by
    simp [Messages.decodeFrom, stringsOfValue]
  have d1 : decodeApiResponse g (.obj [("code", .num c), ("messages", .str x)])
      = decodeApiResponse g (.obj [("code", .num c), ("messages", .arr [.str x])]) := by
    simp only [decodeApiResponse, decodeFields, k1, k2, k3, k4, k5, k6, k7, if_true,
      Bool.false_eq_true, if_false, apiResponse.zero, m1, m2]
  refine ⟨m1, m2, d1, ?_, rfl, rfl⟩
  intro r hr
  simp only [decodeApiResponse, decodeFields, k1, k2, k3, k4, k5, k6, k7, if_true,
    Bool.false_eq_true, if_false, apiResponse.zero, m1] at hr
  generalize decodeInt "apiResponse.code" 0 none (Json.num c) = d at hr
  obtain ⟨n, sv⟩ := d
  cases sv with
  | some e => simp at hr
  | none =>
    simp at hr
    subst hr
    rfl

/-! ## The response format sent by `Purchase` and `Preview` -/

theorem applyOptions_append (r : brandAlertRequest) (a b : List ReqOption) :
    applyOptions r (a ++ b) = applyOptions (applyOptions r a) b := by
  induction a generalizing r with
  | nil => rfl
  | cons o rest ih =>
    cases o with
    | none => simpa [applyOptions] using ih r
    | some f => simpa [applyOptions] using ih (f r)

theorem buildRequest_format_last (k : String) (inc exc : Option SearchTerms) (p : Bool)
    (opts : List ReqOption) (v : String) :
    (buildRequest k inc exc p (opts ++ [OptionResponseFormat v])).ResponseFormat = v := by
  simp [buildRequest, applyOptions_append, applyOptions, OptionResponseFormat]

theorem member_responseFormat (r : brandAlertRequest) (h : r.ResponseFormat ≠ "") :
    (marshalRequest r).member "responseFormat" = some (.str r.ResponseFormat) := by
  obtain ⟨k, inc, exc, since, mode, typos, puny, fmt⟩ := r
  simp only at h
  cases inc <;> cases exc <;> cases typos <;> cases puny <;>
    by_cases hs : since = "" <;> by_cases hm : mode = "" <;>
    simp [marshalRequest, Json.member, List.find?, hs, hm, h]

theorem Purchase_sent (env : Env) (inc exc : Option SearchTerms) (opts : List ReqOption) :
    (Purchase env inc exc opts).sent
      = (request env inc exc true (opts ++ [OptionResponseFormat "json"])).sent := by
  rcases request_cases env inc exc true (opts ++ [OptionResponseFormat "json"]) with
    ⟨a, hq⟩ | ⟨t, hq⟩ | ⟨d, r, b, t, hq⟩ | ⟨d, h, b, hq⟩
  · simp [Purchase, hq]
  · simp [Purchase, hq]
  · simp [Purchase, hq]
  · rw [Purchase_of_request_ok env inc exc opts _ _ hq, hq]
    cases parse env.formatFloat (Response.mk (some h) b).Body with
    | error err => rfl
    | ok r => by_cases hc : r.ErrorMessage.Message ≠ none ∨ r.ErrorMessage.Code ≠ 0 <;>
        simp [hc]

theorem Preview_sent (env : Env) (inc exc : Option SearchTerms) (opts : List ReqOption) :
    (Preview env inc exc opts).sent
      = (request env inc exc false (opts ++ [OptionResponseFormat "json"])).sent := by
  rcases request_cases env inc exc false (opts ++ [OptionResponseFormat "json"]) with
    ⟨a, hq⟩ | ⟨t, hq⟩ | ⟨d, r, b, t, hq⟩ | ⟨d, h, b, hq⟩
  · simp [Preview, hq]
  · simp [Preview, hq]
  · simp [Preview, hq]
  · rw [Preview_of_request_ok env inc exc opts _ _ hq, hq]
    cases parse env.formatFloat (Response.mk (some h) b).Body with
    | error err => rfl
    | ok r => by_cases hc : r.ErrorMessage.Message ≠ none ∨ r.ErrorMessage.Code ≠ 0 <;>
        simp [hc]

theorem request_sent_of_valid (env : Env) (inc exc : Option SearchTerms) (purchase : Bool)
    (opts : List ReqOption) (hv : validateSearchTerms inc exc = none)
    (ho : validateOptions opts = none)
    (hn : env.NewRequest (marshalRequest (buildRequest env.apiKey inc exc purchase opts))
      = none) :
    (request env inc exc purchase opts).sent
      = [marshalRequest (buildRequest env.apiKey inc exc purchase opts)] := by
  cases hd : env.Do (marshalRequest (buildRequest env.apiKey inc exc purchase opts)) <;>
    simp [request, hv, ho, hn, hd]

/-- C8: for valid term sets and a list of non-nil modifiers, whatever they do to the request,
`Purchase` and `Preview` serialize and send exactly one request, built from a struct whose
`ResponseFormat` is `json` and whose `responseFormat` member is `"json"`; with the modifier
`OptionResponseFormat("xml")` the call sends `"responseFormat":"json"` and returns no error. -/
theorem response_format_forced_json (env : Env) (inc exc : Option SearchTerms)
    (opts : List ReqOption) (hv : validateSearchTerms inc exc = none) (ho : none ∉ opts)
    (hn : ∀ d, env.NewRequest d = none) :
    (∃ r : brandAlertRequest, r.ResponseFormat = "json"
        ∧ (Purchase env inc exc opts).sent = [marshalRequest r]
        ∧ (marshalRequest r).member "responseFormat" = some (.str "json"))
      ∧ (∃ r : brandAlertRequest, r.ResponseFormat = "json"
        ∧ (Preview env inc exc opts).sent = [marshalRequest r]
        ∧ (marshalRequest r).member "responseFormat" = some (.str "json"))
      ∧ (Purchase (exampleEnv (.ok ⟨200⟩ (asciiBytes "\x7b\"domainsCount\":4\x7d")))
          (some (some ["whois"])) none [OptionResponseFormat "xml"]).err = none
      ∧ ((Purchase (exampleEnv (.ok ⟨200⟩ (asciiBytes "\x7b\"domainsCount\":4\x7d")))
          (some (some ["whois"])) none [OptionResponseFormat "xml"]).sent.map
            (Json.member "responseFormat")) = [some (.str "json")] := by
  have hoj : validateOptions (opts ++ [OptionResponseFormat "json"]) = none := by
    rw [validateOptions_eq_none_iff]
    simp [ho, OptionResponseFormat]
  refine ⟨⟨buildRequest env.apiKey inc exc true (opts ++ [OptionResponseFormat "json"]),
      buildRequest_format_last _ _ _ _ _ _, ?_, ?_⟩,
    ⟨buildRequest env.apiKey inc exc false (opts ++ [OptionResponseFormat "json"]),
      buildRequest_format_last _ _ _ _ _ _, ?_, ?_⟩, rfl, rfl⟩
  · rw [Purchase_sent, request_sent_of_valid env inc exc true _ hv hoj (hn _)]
  · have h := member_responseFormat
      (buildRequest env.apiKey inc exc true (opts ++ [OptionResponseFormat "json"]))
      (by rw [buildRequest_format_last]; decide)
    rw [buildRequest_format_last] at h
    exact h
  · rw [Preview_sent, request_sent_of_valid env inc exc false _ hv hoj (hn _)]
  · have h := member_responseFormat
      (buildRequest env.apiKey inc exc false (opts ++ [OptionResponseFormat "json"]))
      (by rw [buildRequest_format_last]; decide)
    rw [buildRequest_format_last] at h
    exact h

/-- Witness of C8: the modifiers of the usage example, an XML format among them. -/
theorem response_format_forced_json_witness :
    ∃ r : brandAlertRequest, r.ResponseFormat = "json"
      ∧ (Purchase (exampleEnv (.ok ⟨200⟩ [])) (some (some ["whois"])) none
          [OptionResponseFormat "XML", OptionWithTypos true, OptionPunycode true]).sent
        = [marshalRequest r]
      ∧ (marshalRequest r).member "responseFormat" = some (.str "json") :=
  (response_format_forced_json (exampleEnv (.ok ⟨200⟩ [])) (some (some ["whois"])) none
    [OptionResponseFormat "XML", OptionWithTypos true, OptionPunycode true] rfl
    (by simp [OptionResponseFormat, OptionWithTypos, OptionPunycode]) (fun _ => rfl)).1

/-! ## `Preview` against `Purchase`, and `RawData` -/

theorem request_mode_indep (env : Env) (inc exc : Option SearchTerms) (opts : List ReqOption)
    (hDo : ∀ d d2, env.Do d = env.Do d2) (hNew : ∀ d d2, env.NewRequest d = env.NewRequest d2) :
    ∃ s, request env inc exc false opts
      = ⟨s, (request env inc exc true opts).resp, (request env inc exc true opts).err⟩ := by
  cases hv : validateSearchTerms inc exc with
  | some a => exact ⟨[], by simp [request, hv]⟩
  | none =>
    cases ho : validateOptions opts with
    | some a => exact ⟨[], by simp [request, hv, ho]⟩
    | none =>
      have e1 := hNew (marshalRequest (buildRequest env.apiKey inc exc false opts))
        (marshalRequest (buildRequest env.apiKey inc exc true opts))
      have e2 := hDo (marshalRequest (buildRequest env.apiKey inc exc false opts))
        (marshalRequest (buildRequest env.apiKey inc exc true opts))
      cases hn : env.NewRequest
          (marshalRequest (buildRequest env.apiKey inc exc true opts)) with
      | some t =>
        rw [hn] at e1
        exact ⟨[], by simp [request, hv, ho, hn, e1]⟩
      | none =>
        rw [hn] at e1
        cases hd : env.Do (marshalRequest (buildRequest env.apiKey inc exc true opts)) with
        | failed r b t =>
          rw [hd] at e2
          exact ⟨[marshalRequest (buildRequest env.apiKey inc exc false opts)],
            by simp [request, hv, ho, hn, e1, hd, e2]⟩
        | ok h b =>
          rw [hd] at e2
          exact ⟨[marshalRequest (buildRequest env.apiKey inc exc false opts)],
            by simp [request, hv, ho, hn, e1, hd, e2]⟩

/-- C9: when the client answers the `preview` request as it answers the `purchase` request
(same outcome of `NewRequest` and of `Do`), `Preview` returns the same error and the same
response handle as `Purchase`, and without an error its count is the `DomainsCount` of the
payload `Purchase` returns; for the body `{"domainsCount":4}` the count is 4 with no error. -/
theorem preview_projects_purchase (env : Env) (inc exc : Option SearchTerms)
    (opts : List ReqOption) (hDo : ∀ d d2, env.Do d = env.Do d2)
    (hNew : ∀ d d2, env.NewRequest d = env.NewRequest d2) :
    (Preview env inc exc opts).err = (Purchase env inc exc opts).err
      ∧ (Preview env inc exc opts).resp = (Purchase env inc exc opts).resp
      ∧ ((Purchase env inc exc opts).err = none →
          ∃ p, (Purchase env inc exc opts).brandAlertResponse = some p
            ∧ (Preview env inc exc opts).domainsCount = p.DomainsCount)
      ∧ (Preview (exampleEnv (.ok ⟨200⟩ (asciiBytes "\x7b\"domainsCount\":4\x7d")))
          (some (some ["whois"])) none [OptionResponseFormat "json"]).domainsCount = 4
      ∧ (Preview (exampleEnv (.ok ⟨200⟩ (asciiBytes "\x7b\"domainsCount\":4\x7d")))
          (some (some ["whois"])) none [OptionResponseFormat "json"]).err = none := by
  obtain ⟨s, hf⟩ := request_mode_indep env inc exc (opts ++ [OptionResponseFormat "json"])
    hDo hNew
  refine ⟨?_, ?_, ?_, rfl, rfl⟩
  all_goals
    rcases request_cases env inc exc true (opts ++ [OptionResponseFormat "json"]) with
      ⟨a, hq⟩ | ⟨t, hq⟩ | ⟨d, r, b, t, hq⟩ | ⟨d, h, b, hq⟩
  all_goals rw [hq] at hf
  all_goals try (simp [Purchase, Preview, hq, hf]; done)
  all_goals
    rw [Purchase_of_request_ok env inc exc opts _ _ hq,
      Preview_of_request_ok env inc exc opts _ _ hf]
    cases parse env.formatFloat (Response.mk (some h) b).Body with
    | error err => simp
    | ok r => by_cases hc : r.ErrorMessage.Message ≠ none ∨ r.ErrorMessage.Code ≠ 0 <;>
        simp [hc]

/-- Witness of C9: a client that answers every request with the error body of the tests. -/
theorem preview_projects_purchase_witness :
    (Preview (exampleEnv (.ok ⟨499⟩
        (asciiBytes "\x7b\"code\":499,\"messages\":[\"Test error message.\"]\x7d")))
        (some (some ["whois"])) none []).err
      = (Purchase (exampleEnv (.ok ⟨499⟩
        (asciiBytes "\x7b\"code\":499,\"messages\":[\"Test error message.\"]\x7d")))
        (some (some ["whois"])) none []).err :=
  (preview_projects_purchase (exampleEnv (.ok ⟨499⟩
      (asciiBytes "\x7b\"code\":499,\"messages\":[\"Test error message.\"]\x7d")))
    (some (some ["whois"])) none [] (fun _ _ => rfl) (fun _ _ => rfl)).1

/-- C10: for valid input, when the request is built and `client.Do` returns no error with
response `h` and body `b`, `RawData` returns an error exactly when the status code of `h` is
outside 200..299; the text of that error is `API failed with status code: ` followed by the
decimal status code; in both cases the returned `Response` holds `h` and the bytes `b`
unchanged. -/
theorem rawdata_status_error (env : Env) (inc exc : Option SearchTerms)
    (opts : List ReqOption) (h : HTTPResponse) (b : Bytes)
    (hv : validateSearchTerms inc exc = none) (ho : validateOptions opts = none)
    (hn : env.NewRequest (marshalRequest (buildRequest env.apiKey inc exc true opts)) = none)
    (hd : env.Do (marshalRequest (buildRequest env.apiKey inc exc true opts)) = .ok h b) :
    ((RawData env inc exc opts).err ≠ none ↔ ¬ (200 ≤ h.StatusCode ∧ h.StatusCode ≤ 299))
      ∧ (∀ e, (RawData env inc exc opts).err = some e →
          e.Error = "API failed with status code: " ++ toString h.StatusCode)
      ∧ (RawData env inc exc opts).resp = some ⟨some h, b⟩ := by
  have hq : request env inc exc true opts
      = ⟨[marshalRequest (buildRequest env.apiKey inc exc true opts)],
          some ⟨some h, b⟩, none⟩ := by
    simp [request, hv, ho, hn, hd]
  by_cases hs : 200 ≤ h.StatusCode ∧ h.StatusCode ≤ 299
  · simp [RawData, hq, checkResponse, hs]
  · simp [RawData, hq, checkResponse, hs, Error.Error]

/-- Witness of C10: the server of the tests answering 500 with a body that is not JSON. -/
theorem rawdata_status_error_witness :
    (RawData (exampleEnv (.ok ⟨500⟩ (asciiBytes "<?xml version=\"1.0\"?><>")))
        (some (some ["whois"])) none [OptionResponseFormat "json"]).err.map Error.Error
        = some "API failed with status code: 500"
      ∧ (RawData (exampleEnv (.ok ⟨500⟩ (asciiBytes "<?xml version=\"1.0\"?><>")))
        (some (some ["whois"])) none [OptionResponseFormat "json"]).resp
        = some ⟨some ⟨500⟩, asciiBytes "<?xml version=\"1.0\"?><>"⟩ :=
  ⟨by decide,
    (rawdata_status_error (exampleEnv (.ok ⟨500⟩ (asciiBytes "<?xml version=\"1.0\"?><>")))
      (some (some ["whois"])) none [OptionResponseFormat "json"] ⟨500⟩
      (asciiBytes "<?xml version=\"1.0\"?><>") rfl rfl rfl rfl).2.2⟩

/-! ## Validation before the exchange, transport errors, parse errors -/

/-- C11: when `validateSearchTerms` or `validateOptions` fails, `request` returns the argument
error with a nil `Response` and hands nothing to the client, for every client and both modes;
so do `Purchase`-mode `RawData` calls; the result does not depend on the client at all. -/
theorem validation_precedes_exchange (inc exc : Option SearchTerms) (opts : List ReqOption)
    (h : validateSearchTerms inc exc ≠ none ∨ validateOptions opts ≠ none) :
    ∃ a : ArgError,
      (validateSearchTerms inc exc = some a
        ∨ (validateSearchTerms inc exc = none ∧ validateOptions opts = some a))
      ∧ (∀ (env : Env) (purchase : Bool),
          request env inc exc purchase opts = ⟨[], none, some (.argError a)⟩)
      ∧ (∀ env : Env, RawData env inc exc opts = ⟨[], none, some (.argError a)⟩) := by
  cases hv : validateSearchTerms inc exc with
  | some a =>
    exact ⟨a, Or.inl rfl, fun env p => request_of_invalid_terms env inc exc p opts a hv,
      fun env => RawData_of_request_error env inc exc opts _ _ _
        (request_of_invalid_terms env inc exc true opts a hv)⟩
  | none =>
    cases ho : validateOptions opts with
    | none => rw [hv, ho] at h; simp at h
    | some a =>
      exact ⟨a, Or.inr ⟨rfl, rfl⟩,
        fun env p => request_of_invalid_options env inc exc p opts a hv ho,
        fun env => RawData_of_request_error env inc exc opts _ _ _
          (request_of_invalid_options env inc exc true opts a hv ho)⟩

/-- Witness of C11: the empty include set of the tests. -/
theorem validation_precedes_exchange_witness :
    ∃ a : ArgError,
      (validateSearchTerms (some (some [])) none = some a
        ∨ (validateSearchTerms (some (some [])) none = none
          ∧ validateOptions [OptionResponseFormat "json"] = some a))
      ∧ (∀ (env : Env) (purchase : Bool),
          request env (some (some [])) none purchase [OptionResponseFormat "json"]
            = ⟨[], none, some (.argError a)⟩)
      ∧ (∀ env : Env, RawData env (some (some [])) none [OptionResponseFormat "json"]
            = ⟨[], none, some (.argError a)⟩) :=
  validation_precedes_exchange (some (some [])) none [OptionResponseFormat "json"]
    (Or.inl (by decide))

/-- C12: when `client.Do` returns an error with text `t` after writing the bytes `b` (and the
response `r`, possibly nil), `request` and `RawData` return that same error together with a
non-nil `Response` wrapper holding `r` and `b`. -/
theorem transport_error_keeps_wrapper (env : Env) (inc exc : Option SearchTerms)
    (purchase : Bool) (opts : List ReqOption) (r : Option HTTPResponse) (b : Bytes)
    (t : String)
    (hv : validateSearchTerms inc exc = none) (ho : validateOptions opts = none)
    (hn : ∀ d, env.NewRequest d = none)
    (hd : ∀ d, env.Do d = .failed r b t) :
    request env inc exc purchase opts
        = ⟨[marshalRequest (buildRequest env.apiKey inc exc purchase opts)],
            some ⟨r, b⟩, some (.clientError t)⟩
      ∧ RawData env inc exc opts
        = ⟨[marshalRequest (buildRequest env.apiKey inc exc true opts)],
            some ⟨r, b⟩, some (.clientError t)⟩
      ∧ (Error.clientError t).Error = t := by
  have hq : ∀ p, request env inc exc p opts
      = ⟨[marshalRequest (buildRequest env.apiKey inc exc p opts)],
          some ⟨r, b⟩, some (.clientError t)⟩ := by
    intro p
    simp [request, hv, ho, hn, hd]
  exact ⟨hq purchase, RawData_of_request_error env inc exc opts _ _ _ (hq true), rfl⟩

/-- Witness of C12: the truncated read of the tests, on a 200 response. -/
theorem transport_error_keeps_wrapper_witness :
    RawData (exampleEnv (.failed (some ⟨200⟩) (asciiBytes "\x7b\"domainsCo")
        "cannot read response: unexpected EOF")) (some (some ["whois"])) none []
      = ⟨[marshalRequest (buildRequest "at_key" (some (some ["whois"])) none true [])],
          some ⟨some ⟨200⟩, asciiBytes "\x7b\"domainsCo"⟩,
          some (.clientError "cannot read response: unexpected EOF")⟩ :=
  (transport_error_keeps_wrapper (exampleEnv (.failed (some ⟨200⟩)
      (asciiBytes "\x7b\"domainsCo") "cannot read response: unexpected EOF"))
    (some (some ["whois"])) none true [] (some ⟨200⟩) (asciiBytes "\x7b\"domainsCo")
    "cannot read response: unexpected EOF" rfl rfl (fun _ => rfl) (fun _ => rfl)).2.1

/-- C13: when decoding the envelope from the body fails with the library error `e` (in the
scanner or in the struct decoder), `parse` returns the error whose text is
`cannot parse response: ` followed by the text of `e`; `Purchase` and `Preview` return that
error with a nil payload, respectively count 0, and the raw `Response`; they return a parse
error only when `request` returned no error, that is after `client.Do` succeeded. -/
theorem parse_error_reported (env : Env) (inc exc : Option SearchTerms)
    (opts : List ReqOption) (s1 s2 : List Json) (rsp : Response) (e : LibError)
    (h1 : request env inc exc true (opts ++ [OptionResponseFormat "json"])
      = ⟨s1, some rsp, none⟩)
    (h2 : request env inc exc false (opts ++ [OptionResponseFormat "json"])
      = ⟨s2, some rsp, none⟩)
    (he : decodeValue rsp.Body = .error e
      ∨ ∃ v, decodeValue rsp.Body = .ok v ∧ decodeApiResponse env.formatFloat v = .error e) :
    parse env.formatFloat rsp.Body = .error (.parseError e)
      ∧ (Error.parseError e).Error = "cannot parse response: " ++ e.Error
      ∧ Purchase env inc exc opts = ⟨s1, none, some rsp, some (.parseError e)⟩
      ∧ Preview env inc exc opts = ⟨s2, 0, some rsp, some (.parseError e)⟩
      ∧ (∀ (env2 : Env) (inc2 exc2 : Option SearchTerms) (opts2 : List ReqOption) c,
          (Purchase env2 inc2 exc2 opts2).err = some (.parseError c) →
          (request env2 inc2 exc2 true (opts2 ++ [OptionResponseFormat "json"])).err = none)
      ∧ (∀ (env2 : Env) (inc2 exc2 : Option SearchTerms) (opts2 : List ReqOption) c,
          (Preview env2 inc2 exc2 opts2).err = some (.parseError c) →
          (request env2 inc2 exc2 false (opts2 ++ [OptionResponseFormat "json"])).err = none)
      := by
  have hp : parse env.formatFloat rsp.Body = .error (.parseError e) := by
    rcases he with he | ⟨v, hv, hd⟩
    · simp [parse, he]
    · simp [parse, hv, hd]
  refine ⟨hp, rfl, ?_, ?_, ?_, ?_⟩
  · rw [Purchase_of_request_ok env inc exc opts s1 rsp h1, hp]
  · rw [Preview_of_request_ok env inc exc opts s2 rsp h2, hp]
  · intro env2 inc2 exc2 opts2 c
    rcases request_cases env2 inc2 exc2 true (opts2 ++ [OptionResponseFormat "json"]) with
      ⟨a, hq⟩ | ⟨t, hq⟩ | ⟨d, r, b, t, hq⟩ | ⟨d, h, b, hq⟩
    · simp [Purchase, hq]
    · simp [Purchase, hq]
    · simp [Purchase, hq]
    · intro _; rw [hq]
  · intro env2 inc2 exc2 opts2 c
    rcases request_cases env2 inc2 exc2 false (opts2 ++ [OptionResponseFormat "json"]) with
      ⟨a, hq⟩ | ⟨t, hq⟩ | ⟨d, r, b, t, hq⟩ | ⟨d, h, b, hq⟩
    · simp [Preview, hq]
    · simp [Preview, hq]
    · simp [Preview, hq]
    · intro _; rw [hq]

/-- Witness of C13: the unparsable body of the tests, on status 500. -/
theorem parse_error_reported_witness :
    (Error.parseError (badChar 60 "looking for beginning of value")).Error
        = "cannot parse response: invalid character '<' looking for beginning of value"
      ∧ Preview (exampleEnv (.ok ⟨500⟩ (asciiBytes "<?xml version=\"1.0\"?><>")))
          (some (some ["whois"])) none []
        = ⟨[marshalRequest (buildRequest "at_key" (some (some ["whois"])) none false
              [OptionResponseFormat "json"])], 0,
            some ⟨some ⟨500⟩, asciiBytes "<?xml version=\"1.0\"?><>"⟩,
            some (.parseError (badChar 60 "looking for beginning of value"))⟩ :=
  ⟨by decide,
    (parse_error_reported (exampleEnv (.ok ⟨500⟩ (asciiBytes "<?xml version=\"1.0\"?><>")))
      (some (some ["whois"])) none [] _ _
      ⟨some ⟨500⟩, asciiBytes "<?xml version=\"1.0\"?><>"⟩
      (badChar 60 "looking for beginning of value") rfl rfl (Or.inl rfl)).2.2.2.1⟩

/-! ## Defaults and the effect of each modifier -/

theorem applyOptions_preserves {α : Type} (proj : brandAlertRequest → α)
    (opts : List ReqOption)
    (h : ∀ o ∈ opts, ∀ f, o = some f → ∀ x, proj (f x) = proj x) (r : brandAlertRequest) :
    proj (applyOptions r opts) = proj r := by
  induction opts generalizing r with
  | nil => rfl
  | cons o rest ih =>
    have hrest : ∀ o2 ∈ rest, ∀ f, o2 = some f → ∀ x, proj (f x) = proj x :=
      fun o2 ho2 => h o2 (List.mem_cons_of_mem _ ho2)
    cases o with
    | none => simpa [applyOptions] using ih hrest r
    | some f =>
      simp only [applyOptions]
      rw [ih hrest (f r)]
      exact h (some f) (List.mem_cons_self _ _) f rfl r

theorem std_option_frame (o : ReqOption) (ho : IsStdOption o) (f) (hf : o = some f)
    (x : brandAlertRequest) :
    (f x).APIKey = x.APIKey ∧ (f x).IncludeSearchTerms = x.IncludeSearchTerms
      ∧ (f x).ExcludeSearchTerms = x.ExcludeSearchTerms ∧ (f x).Mode = x.Mode := by
  subst hf
  rcases ho with ⟨v, hv⟩ | ⟨d, hv⟩ | ⟨b, hv⟩ | ⟨b, hv⟩ <;>
    (simp only [OptionResponseFormat, OptionSinceDate, OptionWithTypos, OptionPunycode,
      Option.some.injEq] at hv
     subst hv
     exact ⟨rfl, rfl, rfl, rfl⟩)

theorem applyOptions_std_frame (opts : List ReqOption) (h : ∀ o ∈ opts, IsStdOption o)
    (r : brandAlertRequest) :
    (applyOptions r opts).APIKey = r.APIKey
      ∧ (applyOptions r opts).IncludeSearchTerms = r.IncludeSearchTerms
      ∧ (applyOptions r opts).ExcludeSearchTerms = r.ExcludeSearchTerms
      ∧ (applyOptions r opts).Mode = r.Mode :=
  ⟨applyOptions_preserves (fun x => x.APIKey) opts
      (fun o ho f hf x => (std_option_frame o (h o ho) f hf x).1) r,
    applyOptions_preserves (fun x => x.IncludeSearchTerms) opts
      (fun o ho f hf x => (std_option_frame o (h o ho) f hf x).2.1) r,
    applyOptions_preserves (fun x => x.ExcludeSearchTerms) opts
      (fun o ho f hf x => (std_option_frame o (h o ho) f hf x).2.2.1) r,
    applyOptions_preserves (fun x => x.Mode) opts
      (fun o ho f hf x => (std_option_frame o (h o ho) f hf x).2.2.2) r⟩

/-- C18: with an empty modifier list the request built has `ResponseFormat` `json`,
`WithTypos` false, `Punycode` true and an empty `SinceDate` (the defaults that the comments of
`options.go` state), the mode of the entry point, and the caller's key and term sets; every
request `request` sends with an empty list is the serialization of that struct. -/
theorem default_request_fields (env : Env) (inc exc : Option SearchTerms) (purchase : Bool) :
    buildRequest env.apiKey inc exc purchase []
        = ⟨env.apiKey, inc, exc, "", if purchase then "purchase" else "preview",
            false, true, "json"⟩
      ∧ (buildRequest env.apiKey inc exc purchase []).ResponseFormat = "json"
      ∧ (buildRequest env.apiKey inc exc purchase []).WithTypos = false
      ∧ (buildRequest env.apiKey inc exc purchase []).Punycode = true
      ∧ (buildRequest env.apiKey inc exc purchase []).SinceDate = ""
      ∧ ∀ d ∈ (request env inc exc purchase []).sent,
          d = marshalRequest ⟨env.apiKey, inc, exc, "",
            if purchase then "purchase" else "preview", false, true, "json"⟩ := by
  have hb : buildRequest env.apiKey inc exc purchase []
      = ⟨env.apiKey, inc, exc, "", if purchase then "purchase" else "preview",
          false, true, "json"⟩ := by
    cases purchase <;> rfl
  refine ⟨hb, by rw [hb], by rw [hb], by rw [hb], by rw [hb], ?_⟩
  intro d hd
  rcases request_cases env inc exc purchase [] with
    ⟨a, hq⟩ | ⟨t, hq⟩ | ⟨d2, r, b, t, hq⟩ | ⟨d2, h, b, hq⟩
  · rw [hq] at hd; cases hd
  · rw [hq] at hd; cases hd
  all_goals
    have hs : (request env inc exc purchase []).sent
        = [marshalRequest (buildRequest env.apiKey inc exc purchase [])] := by
      cases hv : validateSearchTerms inc exc with
      | some a => simp [request, hv] at hq
      | none =>
        cases hn : env.NewRequest
            (marshalRequest (buildRequest env.apiKey inc exc purchase [])) with
        | some t2 => simp [request, hv, validateOptions, hn] at hq
        | none => exact request_sent_of_valid env inc exc purchase [] hv rfl hn
    rw [hs, hb] at hd
    simpa using hd

/-- C20: each of the four modifiers changes its own field and leaves every other field as it
was; the modifiers are applied in list order; and the last modifier of a list that targets a
field decides the value of that field. -/
theorem option_sets_one_field (r : brandAlertRequest) (v : String) (d : Time) (b : Bool)
    (pre rest : List ReqOption) :
    applyOptions r [OptionResponseFormat v] = { r with ResponseFormat := v }
      ∧ applyOptions r [OptionSinceDate d] = { r with SinceDate := d.Format }
      ∧ applyOptions r [OptionWithTypos b] = { r with WithTypos := b }
      ∧ applyOptions r [OptionPunycode b] = { r with Punycode := b }
      ∧ (applyOptions r [OptionPunycode b]).WithTypos = r.WithTypos
      ∧ applyOptions r (pre ++ rest) = applyOptions (applyOptions r pre) rest
      ∧ ((∀ o ∈ rest, (∃ x, o = OptionSinceDate x) ∨ (∃ x, o = OptionWithTypos x)
            ∨ (∃ x, o = OptionPunycode x)) →
          (applyOptions r (pre ++ OptionResponseFormat v :: rest)).ResponseFormat = v)
      ∧ ((∀ o ∈ rest, (∃ x, o = OptionResponseFormat x) ∨ (∃ x, o = OptionWithTypos x)
            ∨ (∃ x, o = OptionPunycode x)) →
          (applyOptions r (pre ++ OptionSinceDate d :: rest)).SinceDate = d.Format)
      ∧ ((∀ o ∈ rest, (∃ x, o = OptionResponseFormat x) ∨ (∃ x, o = OptionSinceDate x)
            ∨ (∃ x, o = OptionPunycode x)) →
          (applyOptions r (pre ++ OptionWithTypos b :: rest)).WithTypos = b)
      ∧ ((∀ o ∈ rest, (∃ x, o = OptionResponseFormat x) ∨ (∃ x, o = OptionSinceDate x)
            ∨ (∃ x, o = OptionWithTypos x)) →
          (applyOptions r (pre ++ OptionPunycode b :: rest)).Punycode = b) := by
  refine ⟨rfl, rfl, rfl, rfl, rfl, applyOptions_append r pre rest, ?_, ?_, ?_, ?_⟩
  · intro h
    rw [applyOptions_append]
    simp only [OptionResponseFormat, applyOptions]
    rw [applyOptions_preserves (fun x => x.ResponseFormat) rest]
    intro o ho f hf x
    subst hf
    rcases h _ ho with ⟨y, hy⟩ | ⟨y, hy⟩ | ⟨y, hy⟩ <;>
      (simp only [OptionSinceDate, OptionWithTypos, OptionPunycode, Option.some.injEq] at hy
       subst hy
       rfl)
  · intro h
    rw [applyOptions_append]
    simp only [OptionSinceDate, applyOptions]
    rw [applyOptions_preserves (fun x => x.SinceDate) rest]
    intro o ho f hf x
    subst hf
    rcases h _ ho with ⟨y, hy⟩ | ⟨y, hy⟩ | ⟨y, hy⟩ <;>
      (simp only [OptionResponseFormat, OptionWithTypos, OptionPunycode,
        Option.some.injEq] at hy
       subst hy
       rfl)
  · intro h
    rw [applyOptions_append]
    simp only [OptionWithTypos, applyOptions]
    rw [applyOptions_preserves (fun x => x.WithTypos) rest]
    intro o ho f hf x
    subst hf
    rcases h _ ho with ⟨y, hy⟩ | ⟨y, hy⟩ | ⟨y, hy⟩ <;>
      (simp only [OptionResponseFormat, OptionSinceDate, OptionPunycode,
        Option.some.injEq] at hy
       subst hy
       rfl)
  · intro h
    rw [applyOptions_append]
    simp only [OptionPunycode, applyOptions]
    rw [applyOptions_preserves (fun x => x.Punycode) rest]
    intro o ho f hf x
    subst hf
    rcases h _ ho with ⟨y, hy⟩ | ⟨y, hy⟩ | ⟨y, hy⟩ <;>
      (simp only [OptionResponseFormat, OptionSinceDate, OptionWithTypos,
        Option.some.injEq] at hy
       subst hy
       rfl)

/-! ## The serialized request -/

theorem request_sent_mem (env : Env) (inc exc : Option SearchTerms) (purchase : Bool)
    (opts : List ReqOption) (d : Json) (hd : d ∈ (request env inc exc purchase opts).sent) :
    d = marshalRequest (buildRequest env.apiKey inc exc purchase opts) := by
  cases hv : validateSearchTerms inc exc with
  | some a => simp [request, hv] at hd
  | none =>
    cases ho : validateOptions opts with
    | some a => simp [request, hv, ho] at hd
    | none =>
      cases hn : env.NewRequest
          (marshalRequest (buildRequest env.apiKey inc exc purchase opts)) with
      | some t => simp [request, hv, ho, hn] at hd
      | none =>
        rw [request_sent_of_valid env inc exc purchase opts hv ho hn] at hd
        simpa using hd

theorem member_excludeSearchTerms (r : brandAlertRequest) :
    (marshalRequest r).member "excludeSearchTerms" = r.ExcludeSearchTerms.map marshalTerms
      ∧ ("excludeSearchTerms" ∈ (marshalRequest r).keys ↔ r.ExcludeSearchTerms ≠ none) := by
  obtain ⟨k, inc, exc, since, mode, typos, puny, fmt⟩ := r
  cases inc <;> cases exc <;> cases typos <;> cases puny <;>
    by_cases hs : since = "" <;> by_cases hm : mode = "" <;> by_cases hf : fmt = "" <;>
    simp [marshalRequest, Json.member, Json.keys, List.find?, hs, hm, hf]

/-- C16, counterexample: with an exclude set that is present and has zero items, the body that
`request` sends has the member `excludeSearchTerms`, with the empty array as value. -/
theorem empty_exclude_is_emitted :
    (request (exampleEnv (.ok ⟨200⟩ [])) (some (some ["whois"])) (some (some [])) true
        []).sent.map (Json.member "excludeSearchTerms") = [some (.arr [])]
      ∧ (request (exampleEnv (.ok ⟨200⟩ [])) (some (some ["whois"])) (some (some [])) true
        []).sent.map Json.keys
        = [["apiKey", "includeSearchTerms", "excludeSearchTerms", "mode", "punycode",
            "responseFormat"]] := by
  exact ⟨rfl, rfl⟩

/-- C16, amended: in every body that `request` sends, for modifiers built by the four
constructors, the member `excludeSearchTerms` is left out exactly when the exclude pointer is
nil. A pointer to a non-nil slice is emitted as the array of its items, the empty array `[]`
when that slice has no items; a pointer to a nil slice (`var s SearchTerms; &s`), which also
has zero items, is emitted as `null`. -/
theorem exclude_omitted_iff_nil (env : Env) (inc exc : Option SearchTerms) (purchase : Bool)
    (opts : List ReqOption) (hstd : ∀ o ∈ opts, IsStdOption o) :
    ∀ d ∈ (request env inc exc purchase opts).sent,
      ("excludeSearchTerms" ∈ d.keys ↔ exc ≠ none)
        ∧ d.member "excludeSearchTerms" = exc.map marshalTerms
        ∧ (∀ xs, exc = some (some xs) →
            d.member "excludeSearchTerms" = some (.arr (xs.map Json.str)))
        ∧ (exc = some (some []) → d.member "excludeSearchTerms" = some (.arr []))
        ∧ (exc = some none → d.member "excludeSearchTerms" = some .null) := by
  intro d hd
  rw [request_sent_mem env inc exc purchase opts d hd]
  have hm := member_excludeSearchTerms (buildRequest env.apiKey inc exc purchase opts)
  have hx : (buildRequest env.apiKey inc exc purchase opts).ExcludeSearchTerms = exc := by
    unfold buildRequest
    rw [(applyOptions_std_frame opts hstd _).2.2.1]
    cases purchase <;> rfl
  rw [hx] at hm
  refine ⟨hm.2, hm.1, ?_, ?_, ?_⟩
  · intro xs hxs
    rw [hm.1, hxs]
    rfl
  · intro hxs
    rw [hm.1, hxs]
    rfl
  · intro hxs
    rw [hm.1, hxs]
    rfl

/-- Witness of C16 (amended): two exclude terms and a format modifier. -/
theorem exclude_omitted_iff_nil_witness :
    Json.member "excludeSearchTerms"
        (marshalRequest (buildRequest "at_key" (some (some ["whois"]))
          (some (some ["a", "b"])) true [OptionResponseFormat "xml"]))
      = (some (some ["a", "b"]) : Option SearchTerms).map marshalTerms :=
  (exclude_omitted_iff_nil (exampleEnv (.ok ⟨200⟩ [])) (some (some ["whois"]))
    (some (some ["a", "b"])) true [OptionResponseFormat "xml"]
    (by intro o ho; simp at ho; subst ho; exact Or.inl ⟨"xml", rfl⟩)
    (marshalRequest (buildRequest "at_key" (some (some ["whois"]))
      (some (some ["a", "b"])) true [OptionResponseFormat "xml"]))
    (List.mem_cons_self _ _)).2.1

theorem marshalRequest_members (r : brandAlertRequest) :
    (marshalRequest r).member "apiKey" = some (.str r.APIKey)
      ∧ (marshalRequest r).member "mode"
        = (if r.Mode = "" then none else some (.str r.Mode))
      ∧ (marshalRequest r).member "sinceDate"
        = (if r.SinceDate = "" then none else some (.str r.SinceDate))
      ∧ (marshalRequest r).member "withTypos"
        = (if r.WithTypos then some (.bool true) else none)
      ∧ (marshalRequest r).member "punycode"
        = (if r.Punycode then some (.bool true) else none)
      ∧ (marshalRequest r).member "responseFormat"
        = (if r.ResponseFormat = "" then none else some (.str r.ResponseFormat)) := by
  obtain ⟨k, inc, exc, since, mode, typos, puny, fmt⟩ := r
  cases inc <;> cases exc <;> cases typos <;> cases puny <;>
    by_cases hs : since = "" <;> by_cases hm : mode = "" <;> by_cases hf : fmt = "" <;>
    simp [marshalRequest, Json.member, List.find?, hs, hm, hf]

theorem member_none_iff (k : String) (fields : List (String × Json)) :
    (Json.obj fields).member k = none ↔ k ∉ (Json.obj fields).keys := by
  simp only [Json.member, Json.keys, Option.map_eq_none', List.find?_eq_none, List.mem_map,
    not_exists, not_and, beq_iff_eq]

theorem format_ne_empty (t : Time) : t.Format ≠ "" := by
  intro h
  have h2 := congrArg String.length h
  simp [Time.Format, String.length] at h2

theorem sinceDate_std (opts : List ReqOption) (h : ∀ o ∈ opts, IsStdOption o)
    (r : brandAlertRequest) :
    ((applyOptions r opts).SinceDate ≠ ""
      ↔ r.SinceDate ≠ "" ∨ ∃ t, OptionSinceDate t ∈ opts) := by
  induction opts generalizing r with
  | nil => simp [applyOptions]
  | cons o rest ih =>
    have hrest : ∀ o2 ∈ rest, IsStdOption o2 := fun o2 ho2 => h o2 (List.mem_cons_of_mem _ ho2)
    rcases h o (List.mem_cons_self _ _) with ⟨v, hv⟩ | ⟨d, hv⟩ | ⟨b, hv⟩ | ⟨b, hv⟩
    · subst hv
      simp only [OptionResponseFormat, applyOptions]
      rw [ih hrest]
      constructor
      · rintro (h1 | ⟨t, ht⟩)
        · exact Or.inl h1
        · exact Or.inr ⟨t, List.mem_cons_of_mem _ ht⟩
      · rintro (h1 | ⟨t, ht⟩)
        · exact Or.inl h1
        · rcases List.mem_cons.mp ht with he | hm
          · left
            have := congrArg (fun f => (f.map (fun g => (g r).SinceDate))) he
            simp only [OptionSinceDate, OptionResponseFormat, Option.map_some'] at this
            intro hempty
            have h3 := Option.some.inj this
            simp only [Function.comp] at h3
            exact format_ne_empty t (h3.trans hempty)
          · exact Or.inr ⟨t, hm⟩
    · subst hv
      simp only [OptionSinceDate, applyOptions]
      rw [ih hrest]
      constructor
      · intro _
        exact Or.inr ⟨d, List.mem_cons_self _ _⟩
      · intro _
        exact Or.inl (format_ne_empty d)
    · subst hv
      simp only [OptionWithTypos, applyOptions]
      rw [ih hrest]
      constructor
      · rintro (h1 | ⟨t, ht⟩)
        · exact Or.inl h1
        · exact Or.inr ⟨t, List.mem_cons_of_mem _ ht⟩
      · rintro (h1 | ⟨t, ht⟩)
        · exact Or.inl h1
        · rcases List.mem_cons.mp ht with he | hm
          · left
            have := congrArg (fun f => (f.map (fun g => (g r).SinceDate))) he
            simp only [OptionSinceDate, OptionWithTypos, Option.map_some'] at this
            intro hempty
            have h3 := Option.some.inj this
            exact format_ne_empty t (h3.trans hempty)
          · exact Or.inr ⟨t, hm⟩
    · subst hv
      simp only [OptionPunycode, applyOptions]
      rw [ih hrest]
      constructor
      · rintro (h1 | ⟨t, ht⟩)
        · exact Or.inl h1
        · exact Or.inr ⟨t, List.mem_cons_of_mem _ ht⟩
      · rintro (h1 | ⟨t, ht⟩)
        · exact Or.inl h1
        · rcases List.mem_cons.mp ht with he | hm
          · left
            have := congrArg (fun f => (f.map (fun g => (g r).SinceDate))) he
            simp only [OptionSinceDate, OptionPunycode, Option.map_some'] at this
            intro hempty
            have h3 := Option.some.inj this
            exact format_ne_empty t (h3.trans hempty)
          · exact Or.inr ⟨t, hm⟩

theorem key_mem_iff (k : String) (r : brandAlertRequest) :
    k ∈ (marshalRequest r).keys ↔ (marshalRequest r).member k ≠ none := by
  obtain ⟨fields, hf⟩ : ∃ fields, marshalRequest r = .obj fields := ⟨_, rfl⟩
  rw [hf, Ne, member_none_iff, not_not]

/-- C17: in every body that `request` sends, for modifiers built by the four constructors,
`apiKey` and `mode` are present with the client's key and the mode of the entry point;
`sinceDate` is present exactly when a since-date modifier is in the list; `withTypos` and
`punycode` are present exactly when the field is true, `responseFormat` exactly when the field
is not empty; every present member carries the value of its field. -/
theorem request_body_members (env : Env) (inc exc : Option SearchTerms) (purchase : Bool)
    (opts : List ReqOption) (hstd : ∀ o ∈ opts, IsStdOption o) :
    ∀ d ∈ (request env inc exc purchase opts).sent,
      d.member "apiKey" = some (.str env.apiKey)
        ∧ d.member "mode" = some (.str (if purchase then "purchase" else "preview"))
        ∧ ("sinceDate" ∈ d.keys ↔ ∃ t, OptionSinceDate t ∈ opts)
        ∧ ("sinceDate" ∈ d.keys → d.member "sinceDate"
            = some (.str (buildRequest env.apiKey inc exc purchase opts).SinceDate))
        ∧ ("withTypos" ∈ d.keys
            ↔ (buildRequest env.apiKey inc exc purchase opts).WithTypos = true)
        ∧ ("withTypos" ∈ d.keys → d.member "withTypos" = some (.bool true))
        ∧ ("punycode" ∈ d.keys
            ↔ (buildRequest env.apiKey inc exc purchase opts).Punycode = true)
        ∧ ("punycode" ∈ d.keys → d.member "punycode" = some (.bool true))
        ∧ ("responseFormat" ∈ d.keys
            ↔ (buildRequest env.apiKey inc exc purchase opts).ResponseFormat ≠ "")
        ∧ ("responseFormat" ∈ d.keys → d.member "responseFormat"
            = some (.str (buildRequest env.apiKey inc exc purchase opts).ResponseFormat)) := by
  intro d hd
  rw [request_sent_mem env inc exc purchase opts d hd]
  have hm := marshalRequest_members (buildRequest env.apiKey inc exc purchase opts)
  have hframe := applyOptions_std_frame opts hstd
    (if purchase then
      { (⟨env.apiKey, inc, exc, "", "preview", false, true, "json"⟩ : brandAlertRequest)
        with Mode := "purchase" }
     else ⟨env.apiKey, inc, exc, "", "preview", false, true, "json"⟩)
  have hkey : (buildRequest env.apiKey inc exc purchase opts).APIKey = env.apiKey := by
    unfold buildRequest
    rw [hframe.1]
    cases purchase <;> rfl
  have hmode : (buildRequest env.apiKey inc exc purchase opts).Mode
      = if purchase then "purchase" else "preview" := by
    unfold buildRequest
    rw [hframe.2.2.2]
    cases purchase <;> rfl
  have hsince : ((buildRequest env.apiKey inc exc purchase opts).SinceDate ≠ ""
      ↔ ∃ t, OptionSinceDate t ∈ opts) := by
    unfold buildRequest
    rw [sinceDate_std opts hstd]
    cases purchase <;> simp
  have hmodene : (buildRequest env.apiKey inc exc purchase opts).Mode ≠ "" := by
    rw [hmode]
    cases purchase <;> decide
  simp only [key_mem_iff]
  obtain ⟨h1, h2, h3, h4, h5, h6⟩ := hm
  rw [h1, h2, h3, h4, h5, h6, hkey, if_neg hmodene, hmode]
  refine ⟨rfl, rfl, ?_, ?_, ?_, ?_, ?_, ?_, ?_, ?_⟩
  · rw [← hsince]
    by_cases hs : (buildRequest env.apiKey inc exc purchase opts).SinceDate = "" <;> simp [hs]
  · by_cases hs : (buildRequest env.apiKey inc exc purchase opts).SinceDate = "" <;> simp [hs]
  · cases (buildRequest env.apiKey inc exc purchase opts).WithTypos <;> simp
  · cases (buildRequest env.apiKey inc exc purchase opts).WithTypos <;> simp
  · cases (buildRequest env.apiKey inc exc purchase opts).Punycode <;> simp
  · cases (buildRequest env.apiKey inc exc purchase opts).Punycode <;> simp
  · by_cases hs : (buildRequest env.apiKey inc exc purchase opts).ResponseFormat = "" <;>
      simp [hs]
  · by_cases hs : (buildRequest env.apiKey inc exc purchase opts).ResponseFormat = "" <;>
      simp [hs]

/-- Witness of C17: the modifiers of the usage example with a since-date. -/
theorem request_body_members_witness :
    (request (exampleEnv (.ok ⟨200⟩ [])) (some (some ["whois"])) none true
        [OptionSinceDate ⟨2021, 1, 1, 0, none⟩, OptionWithTypos true,
          OptionPunycode false]).sent
        = [.obj [("apiKey", .str "at_key"), ("includeSearchTerms", .arr [.str "whois"]),
            ("sinceDate", .str "2021-01-01"), ("mode", .str "purchase"),
            ("withTypos", .bool true), ("responseFormat", .str "json")]]
      ∧ ∀ d ∈ (request (exampleEnv (.ok ⟨200⟩ [])) (some (some ["whois"])) none true
          [OptionSinceDate ⟨2021, 1, 1, 0, none⟩, OptionWithTypos true,
            OptionPunycode false]).sent,
        d.member "apiKey" = some (.str "at_key") :=
  ⟨rfl, fun d hd => (request_body_members (exampleEnv (.ok ⟨200⟩ []))
    (some (some ["whois"])) none true
    [OptionSinceDate ⟨2021, 1, 1, 0, none⟩, OptionWithTypos true, OptionPunycode false]
    (by
      intro o ho
      simp only [List.mem_cons, List.mem_singleton, List.not_mem_nil, or_false] at ho
      rcases ho with h | h | h
      · exact Or.inr (Or.inl ⟨_, h⟩)
      · exact Or.inr (Or.inr (Or.inl ⟨_, h⟩))
      · exact Or.inr (Or.inr (Or.inr ⟨_, h⟩))) d hd).1⟩

/-! ## Dates -/

theorem digitVal_digitChar (a : Nat) (h : a < 10) : digitVal (digitChar a) = some a := by
  interval_cases a <;> rfl

theorem digitVal_eq_some (c : Char) (a : Nat) (h : digitVal c = some a) :
    a < 10 ∧ c = digitChar a := by
  unfold digitVal at h
  split at h
  · rename_i hc
    cases h
    obtain ⟨h0, h9⟩ := hc
    have h0' : 48 ≤ c.toNat := h0
    have h9' : c.toNat ≤ 57 := h9
    refine ⟨by omega, ?_⟩
    unfold digitChar
    rw [show 48 + (c.toNat - 48) = c.toNat by omega, Char.ofNat_toNat]
  · cases h

theorem scanString_plain (ps : List Nat) (hp : ∀ p ∈ ps, 35 ≤ p ∧ p < 92) (rest : Bytes)
    (acc : List Char) (fuel : Nat) (hf : ps.length < fuel) :
    scanString fuel (ps ++ 34 :: rest) acc
      = .ok (String.mk (acc.reverse ++ ps.map Char.ofNat), rest) := by
  induction ps generalizing fuel acc with
  | nil =>
    cases fuel with
    | zero => cases hf
    | succ n =>
      simp [scanString, stringStep]
  | cons p tail ih =>
    cases fuel with
    | zero => cases hf
    | succ n =>
      have hp1 := hp p (List.mem_cons_self _ _)
      have h34 : ¬ p = 34 := by omega
      have h92 : ¬ p = 92 := by omega
      have h32 : ¬ p < 32 := by omega
      have h128 : p < 128 := by omega
      rw [List.cons_append, scanString]
      simp only [stringStep, h34, h92, h32, h128, if_false, if_true]
      rw [ih (fun q hq => hp q (List.mem_cons_of_mem _ hq)) _ _ (by simpa using hf)]
      simp

theorem unmarshalValue_quoted (ps : List Nat) (hp : ∀ p ∈ ps, 35 ≤ p ∧ p < 92) :
    unmarshalValue (34 :: (ps ++ [34])) = .ok (.str (String.mk (ps.map Char.ofNat))) := by
  have hs : skipSpace (34 :: (ps ++ [34])) = 34 :: (ps ++ [34]) := by
    simp [skipSpace, isSpace]
  unfold unmarshalValue
  rw [hs]
  simp only [List.length_cons]
  rw [scanValue, hs]
  have h := scanString_plain ps hp [] [] (ps.length + 1 + 1) (by omega)
  simp only [List.reverse_nil, List.nil_append] at h
  simp [h, skipSpace]

theorem format_of_valid (y m d ns : Nat) (loc : Option String) (hy : y < 10000)
    (hm : m < 100) (hd : d < 100) :
    (Time.mk (y : Int) m d ns loc).Format
      = String.mk [digitChar (y / 100 / 10), digitChar (y / 100 % 10),
          digitChar (y % 100 / 10), digitChar (y % 100 % 10), '-',
          digitChar (m / 10), digitChar (m % 10), '-',
          digitChar (d / 10), digitChar (d % 10)] := by
  have h0 : ¬ ((y : Int) < 0) := by omega
  simp [Time.Format, appendInt, appendNat, h0, hy, hm, hd]

theorem parseDate_format (y m d ns : Nat) (loc : Option String) (hy : y < 10000)
    (hm1 : 1 ≤ m) (hm12 : m ≤ 12) (hd1 : 1 ≤ d) (hdm : d ≤ daysIn m y) :
    parseDate (Time.mk (y : Int) m d ns loc).Format = .ok ⟨y, m, d, 0, none⟩ := by
  have hd31 : d ≤ 31 := by
    unfold daysIn at hdm
    split at hdm
    · split at hdm <;> omega
    · split at hdm <;> omega
  rw [format_of_valid y m d ns loc hy (by omega) (by omega)]
  unfold parseDate
  simp only [digitVal_digitChar _ (show y / 100 / 10 < 10 by omega),
    digitVal_digitChar _ (show y / 100 % 10 < 10 by omega),
    digitVal_digitChar _ (show y % 100 / 10 < 10 by omega),
    digitVal_digitChar _ (show y % 100 % 10 < 10 by omega),
    digitVal_digitChar _ (show m / 10 < 10 by omega),
    digitVal_digitChar _ (show m % 10 < 10 by omega),
    digitVal_digitChar _ (show d / 10 < 10 by omega),
    digitVal_digitChar _ (show d % 10 < 10 by omega)]
  have e1 : y / 100 / 10 * 1000 + y / 100 % 10 * 100 + y % 100 / 10 * 10 + y % 100 % 10 = y := by
    omega
  have e2 : m / 10 * 10 + m % 10 = m := by omega
  have e3 : d / 10 * 10 + d % 10 = d := by omega
  simp only [e1, e2, e3]
  have c1 : ¬ (m = 0 ∨ 12 < m) := by omega
  have c2 : ¬ (d < 1 ∨ d > daysIn m (y : Int)) := by omega
  simp [c1]
  exact ⟨by omega, hdm⟩

theorem parseDate_ok (s : String) (v : Time) (h : parseDate s = .ok v) :
    ∃ y m d : Nat, y < 10000 ∧ 1 ≤ m ∧ m ≤ 12 ∧ 1 ≤ d ∧ d ≤ daysIn m y
      ∧ v = ⟨y, m, d, 0, none⟩ ∧ s = (Time.mk (y : Int) m d 0 none).Format := by
  unfold parseDate at h
  dsimp only at h
  repeat' split at h
  all_goals try (cases h; done)
  rename_i _x9 y1 y2 y3 y4 _o1 _o2 _o3 _o4 a b c d ha hb hc hd _r1 _r2 m1 m2 _o5 _o6 e f
    he hf hmonth _r3 _r4 d1 d2 rest5 hdata _o7 _o8 g k hg hk hrest hday
  cases h
  obtain ⟨ha1, ha2⟩ := digitVal_eq_some _ _ ha
  obtain ⟨hb1, hb2⟩ := digitVal_eq_some _ _ hb
  obtain ⟨hc1, hc2⟩ := digitVal_eq_some _ _ hc
  obtain ⟨hd1, hd2⟩ := digitVal_eq_some _ _ hd
  obtain ⟨he1, he2⟩ := digitVal_eq_some _ _ he
  obtain ⟨hf1, hf2⟩ := digitVal_eq_some _ _ hf
  obtain ⟨hg1, hg2⟩ := digitVal_eq_some _ _ hg
  obtain ⟨hk1, hk2⟩ := digitVal_eq_some _ _ hk
  have hr5 : rest5 = [] := by simpa using hrest
  subst hr5 ha2 hb2 hc2 hd2 he2 hf2 hg2 hk2
  have hday2 : 1 ≤ g * 10 + k
      ∧ g * 10 + k ≤ daysIn (e * 10 + f) ((a * 1000 + b * 100 + c * 10 + d : Nat) : Int) := by
    push_neg at hday
    exact ⟨hday.1, hday.2⟩
  refine ⟨a * 1000 + b * 100 + c * 10 + d, e * 10 + f, g * 10 + k, by omega, by omega,
    by omega, hday2.1, hday2.2, rfl, ?_⟩
  have hd99 : g * 10 + k < 100 := by omega
  rw [format_of_valid _ _ _ 0 none (by omega) (by omega) hd99]
  have q1 : (a * 1000 + b * 100 + c * 10 + d) / 100 / 10 = a := by omega
  have q2 : (a * 1000 + b * 100 + c * 10 + d) / 100 % 10 = b := by omega
  have q3 : (a * 1000 + b * 100 + c * 10 + d) % 100 / 10 = c := by omega
  have q4 : (a * 1000 + b * 100 + c * 10 + d) % 100 % 10 = d := by omega
  have q5 : (e * 10 + f) / 10 = e := by omega
  have q6 : (e * 10 + f) % 10 = f := by omega
  have q7 : (g * 10 + k) / 10 = g := by omega
  have q8 : (g * 10 + k) % 10 = k := by omega
  rw [q1, q2, q3, q4, q5, q6, q7, q8]
  cases s
  simp only at hdata
  rw [hdata]

theorem digitChar_toNat (a : Nat) (h : a < 10) : (digitChar a).toNat = 48 + a := by
  interval_cases a <;> rfl

theorem format_bytes_plain (y m d ns : Nat) (loc : Option String) (hy : y < 10000)
    (hm : m < 100) (hd : d < 100) :
    ∀ p ∈ (Time.mk (y : Int) m d ns loc).Format.data.map Char.toNat, 35 ≤ p ∧ p < 92 := by
  rw [format_of_valid y m d ns loc hy hm hd]
  intro p hp
  simp only [List.map_cons, List.map_nil, List.mem_cons, List.mem_singleton,
    List.not_mem_nil, or_false,
    digitChar_toNat _ (show y / 100 / 10 < 10 by omega),
    digitChar_toNat _ (show y / 100 % 10 < 10 by omega),
    digitChar_toNat _ (show y % 100 / 10 < 10 by omega),
    digitChar_toNat _ (show y % 100 % 10 < 10 by omega),
    digitChar_toNat _ (show m / 10 < 10 by omega),
    digitChar_toNat _ (show m % 10 < 10 by omega),
    digitChar_toNat _ (show d / 10 < 10 by omega),
    digitChar_toNat _ (show d % 10 < 10 by omega)] at hp
  have hdash : ('-' : Char).toNat = 45 := rfl
  rw [hdash] at hp
  omega

theorem unmarshalString_quoted (s : String)
    (hp : ∀ p ∈ s.data.map Char.toNat, 35 ≤ p ∧ p < 92) :
    unmarshalString (34 :: (s.data.map Char.toNat ++ [34])) = .ok s := by
  unfold unmarshalString
  rw [unmarshalValue_quoted _ hp]
  simp [stringOfValue, List.map_map, Function.comp_def, Char.ofNat_toNat]

/-- C19, counterexample: for a time in the year 10000 the modifier writes `10000-01-01`, a
string of eleven characters with a five-digit year. -/
theorem since_date_five_digit_year :
    (applyOptions (buildRequest "k" none none false [])
        [OptionSinceDate ⟨10000, 1, 1, 0, none⟩]).SinceDate = "10000-01-01"
      ∧ (applyOptions (buildRequest "k" none none false [])
        [OptionSinceDate ⟨10000, 1, 1, 0, none⟩]).SinceDate.length = 11 := by
  decide

/-- C19, amended: for every time whose year lies in 0..9999, `OptionSinceDate` sets
`SinceDate` to the ten characters `YYYY-MM-DD` of its calendar date (four-digit year, two-digit
month and day, zero-padded); the time of day and the location's name do not enter; the time
2021-01-01T00:00:00Z gives `2021-01-01`. -/
theorem since_date_format (r : brandAlertRequest) (y m d ns : Nat) (loc : Option String)
    (hy : y < 10000) (hm1 : 1 ≤ m) (hm12 : m ≤ 12) (hd1 : 1 ≤ d) (hd31 : d ≤ 31) :
    (applyOptions r [OptionSinceDate ⟨y, m, d, ns, loc⟩]).SinceDate
        = String.mk [digitChar (y / 1000), digitChar (y / 100 % 10), digitChar (y / 10 % 10),
            digitChar (y % 10), '-', digitChar (m / 10), digitChar (m % 10), '-',
            digitChar (d / 10), digitChar (d % 10)]
      ∧ (applyOptions r [OptionSinceDate ⟨y, m, d, ns, loc⟩]).SinceDate.length = 10
      ∧ (∀ (ns2 : Nat) (loc2 : Option String),
          (applyOptions r [OptionSinceDate ⟨y, m, d, ns2, loc2⟩]).SinceDate
            = (applyOptions r [OptionSinceDate ⟨y, m, d, ns, loc⟩]).SinceDate)
      ∧ (applyOptions r [OptionSinceDate ⟨2021, 1, 1, 0, none⟩]).SinceDate = "2021-01-01" := by
  have hf : (applyOptions r [OptionSinceDate ⟨y, m, d, ns, loc⟩]).SinceDate
      = (Time.mk (y : Int) m d ns loc).Format := rfl
  have q1 : y / 100 / 10 = y / 1000 := by omega
  have q3 : y % 100 / 10 = y / 10 % 10 := by omega
  have q4 : y % 100 % 10 = y % 10 := by omega
  have h1 : (applyOptions r [OptionSinceDate ⟨y, m, d, ns, loc⟩]).SinceDate
      = String.mk [digitChar (y / 1000), digitChar (y / 100 % 10), digitChar (y / 10 % 10),
          digitChar (y % 10), '-', digitChar (m / 10), digitChar (m % 10), '-',
          digitChar (d / 10), digitChar (d % 10)] := by
    rw [hf, format_of_valid y m d ns loc hy (by omega) (by omega), q1, q3, q4]
  refine ⟨h1, ?_, fun ns2 loc2 => rfl, rfl⟩
  rw [h1]
  rfl

/-- Witness of C19 (amended): a date of the test responses, late in the day. -/
theorem since_date_format_witness :
    (applyOptions (buildRequest "k" none none false [])
        [OptionSinceDate ⟨2022, 10, 30, 86399000000000, none⟩]).SinceDate.length = 10 :=
  (since_date_format (buildRequest "k" none none false []) 2022 10 30 86399000000000 none
    (by decide) (by decide) (by decide) (by decide) (by decide)).2.1

/-- C14, counterexample: for the zero time, which `options.go` itself passes to
`OptionSinceDate`, the modifier writes `0001-01-01`; that string decodes to the zero `Time`,
and `MarshalJSON` of the zero `Time` is `""`, not `"0001-01-01"`. -/
theorem zero_date_round_trip_fails :
    (applyOptions (buildRequest "k" none none false [])
        [OptionSinceDate emptyTime]).SinceDate = "0001-01-01"
      ∧ Time.UnmarshalJSON ⟨2000, 2, 2, 0, none⟩ (asciiBytes "\"0001-01-01\"")
        = (emptyTime, none)
      ∧ Time.MarshalJSON emptyTime = "\"\""
      ∧ Time.MarshalJSON emptyTime ≠ "\"0001-01-01\"" := by
  decide

/-- C14, amended: for every date with a year in 0..9999, the string `s` that
`OptionSinceDate` writes decodes through `Time.UnmarshalJSON` without error to midnight UTC of
that date; and unless the date is 0001-01-01, `Time.MarshalJSON` of the decoded value is the
JSON string `s` again. -/
theorem date_round_trip (r : brandAlertRequest) (t0 : Time) (y m d ns : Nat)
    (loc : Option String) (hy : y < 10000) (hm1 : 1 ≤ m) (hm12 : m ≤ 12) (hd1 : 1 ≤ d)
    (hdm : d ≤ daysIn m y) :
    Time.UnmarshalJSON t0
        (34 :: ((applyOptions r [OptionSinceDate ⟨y, m, d, ns, loc⟩]).SinceDate.data.map
          Char.toNat ++ [34]))
        = (⟨y, m, d, 0, none⟩, none)
      ∧ (¬ (y = 1 ∧ m = 1 ∧ d = 1) →
          Time.MarshalJSON ⟨y, m, d, 0, none⟩
            = "\"" ++ (applyOptions r [OptionSinceDate ⟨y, m, d, ns, loc⟩]).SinceDate
              ++ "\"") := by
  have hf : (applyOptions r [OptionSinceDate ⟨y, m, d, ns, loc⟩]).SinceDate
      = (Time.mk (y : Int) m d ns loc).Format := rfl
  have hd31 : d ≤ 31 := by
    unfold daysIn at hdm
    split at hdm
    · split at hdm <;> omega
    · split at hdm <;> omega
  rw [hf]
  constructor
  · unfold Time.UnmarshalJSON
    rw [unmarshalString_quoted _
      (format_bytes_plain y m d ns loc hy (by omega) (by omega))]
    simp only [Time.store, format_ne_empty, if_false]
    rw [parseDate_format y m d ns loc hy hm1 hm12 hd1 hdm]
  · intro hne
    have hz : (Time.mk (y : Int) m d 0 none) ≠ emptyTime := by
      intro h
      simp only [emptyTime, Time.mk.injEq] at h
      exact hne ⟨by omega, h.2.1, h.2.2.1⟩
    simp only [Time.MarshalJSON, hz, if_false]
    rfl

/-- Witness of C14 (amended): the date of the domain items in the tests. -/
theorem date_round_trip_witness :
    Time.UnmarshalJSON emptyTime
        (34 :: ((applyOptions (buildRequest "k" none none false [])
          [OptionSinceDate ⟨2022, 10, 30, 5, none⟩]).SinceDate.data.map Char.toNat ++ [34]))
      = (⟨2022, 10, 30, 0, none⟩, none) :=
  (date_round_trip (buildRequest "k" none none false []) emptyTime 2022 10 30 5 none
    (by decide) (by decide) (by decide) (by decide) (by decide)).1

/-- C15, counterexample: the non-empty date string `0001-01-01` decodes to the zero `Time`,
which `MarshalJSON` writes as `""`. -/
theorem first_day_decodes_to_zero :
    Time.decodeFrom ⟨2000, 2, 2, 0, none⟩ (.str "0001-01-01") = (emptyTime, none)
      ∧ (Time.decodeFrom ⟨2000, 2, 2, 0, none⟩ (.str "0001-01-01")).1.MarshalJSON = "\"\"" := by
  decide

/-- C15, amended: `UnmarshalJSON` of the JSON string `""` succeeds and stores the zero
`Time`; `MarshalJSON` of the zero `Time` is `""`; and every non-empty date string other than
`0001-01-01` that decodes without error gives a `Time` that is not the zero `Time` and that
`MarshalJSON` writes as that same ten-character string in quotes. -/
theorem empty_date_fixed_point (t : Time) (s : String) (v : Time) (hs : s ≠ "")
    (hz : s ≠ "0001-01-01") (hdec : Time.decodeFrom t (.str s) = (v, none)) :
    Time.UnmarshalJSON t (asciiBytes "\"\"") = (emptyTime, none)
      ∧ Time.MarshalJSON emptyTime = "\"\""
      ∧ v ≠ emptyTime
      ∧ v.MarshalJSON = "\"" ++ s ++ "\""
      ∧ s.length = 10 := by
  have hp : parseDate s = .ok v := by
    simp only [Time.decodeFrom, stringOfValue, Time.store, hs, if_false] at hdec
    cases hq : parseDate s with
    | error e => rw [hq] at hdec; cases hdec
    | ok w => rw [hq] at hdec; cases hdec; rfl
  obtain ⟨y, m, d, hy, hm1, hm12, hd1, hdm, hv, hfmt⟩ := parseDate_ok s v hp
  have hd31 : d ≤ 31 := by
    unfold daysIn at hdm
    split at hdm
    · split at hdm <;> omega
    · split at hdm <;> omega
  have hne : v ≠ emptyTime := by
    intro h
    rw [hv] at h
    simp only [emptyTime, Time.mk.injEq] at h
    have hy1 : y = 1 := by omega
    obtain ⟨_, hm, hd, _⟩ := h
    subst hy1 hm hd
    exact hz (by rw [hfmt]; rfl)
  refine ⟨rfl, rfl, hne, ?_, ?_⟩
  · simp only [Time.MarshalJSON, hne, if_false]
    rw [hv, ← hfmt]
  · rw [hfmt, format_of_valid y m d 0 none hy (by omega) (by omega)]
    rfl

/-- Witness of C15 (amended): the date of the domain items in the tests. -/
theorem empty_date_fixed_point_witness :
    (⟨2022, 10, 30, 0, none⟩ : Time) ≠ emptyTime
      ∧ Time.MarshalJSON ⟨2022, 10, 30, 0, none⟩ = "\"" ++ "2022-10-30" ++ "\"" :=
  ⟨(empty_date_fixed_point emptyTime "2022-10-30" ⟨2022, 10, 30, 0, none⟩ (by decide)
      (by decide) (by decide)).2.2.1,
    (empty_date_fixed_point emptyTime "2022-10-30" ⟨2022, 10, 30, 0, none⟩ (by decide)
      (by decide) (by decide)).2.2.2.1⟩

/-! ## The mode and the format that each entry point sends -/

theorem RawData_sent (env : Env) (inc exc : Option SearchTerms) (opts : List ReqOption) :
    (RawData env inc exc opts).sent = (request env inc exc true opts).sent := by
  rcases request_cases env inc exc true opts with
    ⟨a, hq⟩ | ⟨t, hq⟩ | ⟨d, r, b, t, hq⟩ | ⟨d, h, b, hq⟩
  · simp [RawData, hq]
  · simp [RawData, hq]
  · simp [RawData, hq]
  · cases hc : checkResponse h <;> simp [RawData, hq, hc]

theorem request_mode_member (env : Env) (inc exc : Option SearchTerms) (purchase : Bool)
    (opts : List ReqOption) (hstd : ∀ o ∈ opts, IsStdOption o) (d : Json)
    (hd : d ∈ (request env inc exc purchase opts).sent) :
    d.member "mode" = some (.str (if purchase then "purchase" else "preview")) := by
  rw [request_sent_mem env inc exc purchase opts d hd]
  have hmode : (buildRequest env.apiKey inc exc purchase opts).Mode
      = if purchase then "purchase" else "preview" := by
    unfold buildRequest
    rw [(applyOptions_std_frame opts hstd _).2.2.2]
    cases purchase <;> rfl
  have hne : (buildRequest env.apiKey inc exc purchase opts).Mode ≠ "" := by
    rw [hmode]
    cases purchase <;> decide
  rw [(marshalRequest_members _).2.1, if_neg hne, hmode]

theorem std_append_json (opts : List ReqOption) (hstd : ∀ o ∈ opts, IsStdOption o) :
    ∀ o ∈ opts ++ [OptionResponseFormat "json"], IsStdOption o := by
  intro o ho
  rcases List.mem_append.mp ho with h | h
  · exact hstd o h
  · rw [List.mem_singleton] at h
    exact Or.inl ⟨"json", h⟩

/-- C24: for every list of modifiers built by the four constructors, applying the list leaves
the API key, the include set, the exclude set and the mode of a request as they were; every
request that `Preview` sends has mode `preview`, and every request that `Purchase` or
`RawData` sends has mode `purchase`. -/
theorem mode_fixed_by_entry_point (env : Env) (inc exc : Option SearchTerms)
    (opts : List ReqOption) (r : brandAlertRequest) (hstd : ∀ o ∈ opts, IsStdOption o) :
    (applyOptions r opts).APIKey = r.APIKey
      ∧ (applyOptions r opts).IncludeSearchTerms = r.IncludeSearchTerms
      ∧ (applyOptions r opts).ExcludeSearchTerms = r.ExcludeSearchTerms
      ∧ (applyOptions r opts).Mode = r.Mode
      ∧ (∀ d ∈ (Preview env inc exc opts).sent, d.member "mode" = some (.str "preview"))
      ∧ (∀ d ∈ (Purchase env inc exc opts).sent, d.member "mode" = some (.str "purchase"))
      ∧ (∀ d ∈ (RawData env inc exc opts).sent, d.member "mode" = some (.str "purchase")) := by
  obtain ⟨f1, f2, f3, f4⟩ := applyOptions_std_frame opts hstd r
  refine ⟨f1, f2, f3, f4, ?_, ?_, ?_⟩
  · intro d hd
    rw [Preview_sent] at hd
    exact request_mode_member env inc exc false _ (std_append_json opts hstd) d hd
  · intro d hd
    rw [Purchase_sent] at hd
    exact request_mode_member env inc exc true _ (std_append_json opts hstd) d hd
  · intro d hd
    rw [RawData_sent] at hd
    exact request_mode_member env inc exc true _ hstd d hd

/-- Witness of C24: the modifiers of the usage example. -/
theorem mode_fixed_by_entry_point_witness :
    (applyOptions (buildRequest "at_key" (some (some ["whois"])) none false [])
        [OptionResponseFormat "XML", OptionWithTypos true, OptionPunycode true]).Mode
      = (buildRequest "at_key" (some (some ["whois"])) none false []).Mode :=
  (mode_fixed_by_entry_point (exampleEnv (.ok ⟨200⟩ [])) (some (some ["whois"])) none
    [OptionResponseFormat "XML", OptionWithTypos true, OptionPunycode true]
    (buildRequest "at_key" (some (some ["whois"])) none false [])
    (by
      intro o ho
      simp only [List.mem_cons, List.mem_singleton, List.not_mem_nil, or_false] at ho
      rcases ho with h | h | h
      · exact Or.inl ⟨_, h⟩
      · exact Or.inr (Or.inr (Or.inl ⟨_, h⟩))
      · exact Or.inr (Or.inr (Or.inr ⟨_, h⟩)))).2.2.2.1

theorem format_kept_by_others (rest : List ReqOption)
    (hrest : ∀ o ∈ rest, (∃ x, o = OptionSinceDate x) ∨ (∃ x, o = OptionWithTypos x)
      ∨ (∃ x, o = OptionPunycode x)) (r : brandAlertRequest) :
    (applyOptions r rest).ResponseFormat = r.ResponseFormat := by
  apply applyOptions_preserves (fun x => x.ResponseFormat) rest
  intro o ho f hf x
  subst hf
  rcases hrest _ ho with ⟨y, hy⟩ | ⟨y, hy⟩ | ⟨y, hy⟩ <;>
    (simp only [OptionSinceDate, OptionWithTypos, OptionPunycode, Option.some.injEq] at hy
     subst hy
     rfl)

theorem others_not_nil (rest : List ReqOption)
    (hrest : ∀ o ∈ rest, (∃ x, o = OptionSinceDate x) ∨ (∃ x, o = OptionWithTypos x)
      ∨ (∃ x, o = OptionPunycode x)) : none ∉ rest := by
  intro hmem
  rcases hrest _ hmem with ⟨y, hy⟩ | ⟨y, hy⟩ | ⟨y, hy⟩ <;>
    simp [OptionSinceDate, OptionWithTypos, OptionPunycode] at hy

/-- C21: `RawData` sends the caller's format. For valid term sets and non-nil modifiers, when
the last `OptionResponseFormat` of the list has value `v` (only the other three constructors
follow it), the one request sent is the serialization of a struct with `ResponseFormat = v`,
whose `responseFormat` member is `v` (the member is left out when `v` is empty); when the list
holds none, the format is `json`. `RawData` with `OptionResponseFormat("xml")` and a body that
is not JSON on status 200 returns no error. -/
theorem rawdata_keeps_format (env : Env) (inc exc : Option SearchTerms)
    (pre rest : List ReqOption) (v : String)
    (hv : validateSearchTerms inc exc = none) (hpre : none ∉ pre)
    (hrest : ∀ o ∈ rest, (∃ x, o = OptionSinceDate x) ∨ (∃ x, o = OptionWithTypos x)
      ∨ (∃ x, o = OptionPunycode x))
    (hn : ∀ d, env.NewRequest d = none) :
    (∃ r : brandAlertRequest, r.ResponseFormat = v
        ∧ (RawData env inc exc (pre ++ OptionResponseFormat v :: rest)).sent
          = [marshalRequest r]
        ∧ (marshalRequest r).member "responseFormat"
          = (if v = "" then none else some (.str v)))
      ∧ (∃ r : brandAlertRequest, r.ResponseFormat = "json"
        ∧ (RawData env inc exc rest).sent = [marshalRequest r]
        ∧ (marshalRequest r).member "responseFormat" = some (.str "json"))
      ∧ RawData (exampleEnv (.ok ⟨200⟩ (asciiBytes "<?xml version=\"1.0\"?><>")))
          (some (some ["whois"])) none [OptionResponseFormat "xml"]
        = ⟨[.obj [("apiKey", .str "at_key"), ("includeSearchTerms", .arr [.str "whois"]),
              ("mode", .str "purchase"), ("punycode", .bool true),
              ("responseFormat", .str "xml")]],
            some ⟨some ⟨200⟩, asciiBytes "<?xml version=\"1.0\"?><>"⟩, none⟩ := by
  have hnr := others_not_nil rest hrest
  have ho1 : validateOptions (pre ++ OptionResponseFormat v :: rest) = none := by
    rw [validateOptions_eq_none_iff]
    simp [hpre, hnr, OptionResponseFormat]
  have ho2 : validateOptions rest = none := by
    rw [validateOptions_eq_none_iff]
    exact hnr
  have hf1 : (buildRequest env.apiKey inc exc true
      (pre ++ OptionResponseFormat v :: rest)).ResponseFormat = v := by
    unfold buildRequest
    rw [applyOptions_append]
    simp only [OptionResponseFormat, applyOptions]
    rw [format_kept_by_others rest hrest]
  have hf2 : (buildRequest env.apiKey inc exc true rest).ResponseFormat = "json" := by
    unfold buildRequest
    rw [format_kept_by_others rest hrest]
    rfl
  refine ⟨⟨_, hf1, ?_, ?_⟩, ⟨_, hf2, ?_, ?_⟩, rfl⟩
  · rw [RawData_sent, request_sent_of_valid env inc exc true _ hv ho1 (hn _)]
  · rw [(marshalRequest_members _).2.2.2.2.2, hf1]
  · rw [RawData_sent, request_sent_of_valid env inc exc true _ hv ho2 (hn _)]
  · rw [(marshalRequest_members _).2.2.2.2.2, hf2]
    rfl

/-- Witness of C21: two format modifiers, the later one followed by a typos modifier. -/
theorem rawdata_keeps_format_witness :
    ∃ r : brandAlertRequest, r.ResponseFormat = "xml"
      ∧ (RawData (exampleEnv (.ok ⟨200⟩ [])) (some (some ["whois"])) none
          ([OptionResponseFormat "json"] ++ OptionResponseFormat "xml"
            :: [OptionWithTypos true])).sent = [marshalRequest r]
      ∧ (marshalRequest r).member "responseFormat"
        = (if "xml" = "" then none else some (.str "xml")) :=
  (rawdata_keeps_format (exampleEnv (.ok ⟨200⟩ [])) (some (some ["whois"])) none
    [OptionResponseFormat "json"] [OptionWithTypos true] "xml" rfl
    (by simp [OptionResponseFormat])
    (by
      intro o ho
      rw [List.mem_singleton] at ho
      exact Or.inr (Or.inl ⟨_, ho⟩))
    (fun _ => rfl)).1

/-! ## The status code is read by `RawData` only -/

theorem request_of_ok (env : Env) (inc exc : Option SearchTerms) (purchase : Bool)
    (opts : List ReqOption) (h : HTTPResponse) (b : Bytes)
    (hv : validateSearchTerms inc exc = none) (ho : validateOptions opts = none)
    (hn : env.NewRequest (marshalRequest (buildRequest env.apiKey inc exc purchase opts))
      = none)
    (hd : env.Do (marshalRequest (buildRequest env.apiKey inc exc purchase opts)) = .ok h b) :
    request env inc exc purchase opts
      = ⟨[marshalRequest (buildRequest env.apiKey inc exc purchase opts)],
          some ⟨some h, b⟩, none⟩ := by
  simp [request, hv, ho, hn, hd]

/-- C23: two clients that differ only in the status code of the responses they return without
error (same key, same `NewRequest`, same body bytes for every request) get the same payload and
error from `Purchase` and the same count and error from `Preview`; on status 500 with the body
`{"domainsCount":4}` `Preview` returns 4 without error while `RawData` returns the status
error. -/
theorem status_not_inspected (k : String) (nr : Json → Option String)
    (g : String → String) (do1 do2 : Json → DoResult) (inc exc : Option SearchTerms)
    (opts : List ReqOption)
    (hsame : ∀ d, ∃ h1 h2 b, do1 d = .ok h1 b ∧ do2 d = .ok h2 b) :
    (Purchase ⟨k, nr, do1, g⟩ inc exc opts).brandAlertResponse
        = (Purchase ⟨k, nr, do2, g⟩ inc exc opts).brandAlertResponse
      ∧ (Purchase ⟨k, nr, do1, g⟩ inc exc opts).err
        = (Purchase ⟨k, nr, do2, g⟩ inc exc opts).err
      ∧ (Preview ⟨k, nr, do1, g⟩ inc exc opts).domainsCount
        = (Preview ⟨k, nr, do2, g⟩ inc exc opts).domainsCount
      ∧ (Preview ⟨k, nr, do1, g⟩ inc exc opts).err
        = (Preview ⟨k, nr, do2, g⟩ inc exc opts).err
      ∧ (Preview (exampleEnv (.ok ⟨500⟩ (asciiBytes "\x7b\"domainsCount\":4\x7d")))
          (some (some ["whois"])) none []).domainsCount = 4
      ∧ (Preview (exampleEnv (.ok ⟨500⟩ (asciiBytes "\x7b\"domainsCount\":4\x7d")))
          (some (some ["whois"])) none []).err = none
      ∧ (RawData (exampleEnv (.ok ⟨500⟩ (asciiBytes "\x7b\"domainsCount\":4\x7d")))
          (some (some ["whois"])) none []).err = some (.statusError ⟨500⟩) := by
  have key : ∀ purchase : Bool,
      (∃ s r e, request ⟨k, nr, do1, g⟩ inc exc purchase
            (opts ++ [OptionResponseFormat "json"]) = ⟨s, r, some e⟩
          ∧ request ⟨k, nr, do2, g⟩ inc exc purchase
            (opts ++ [OptionResponseFormat "json"]) = ⟨s, r, some e⟩)
        ∨ ∃ s h1 h2 b, request ⟨k, nr, do1, g⟩ inc exc purchase
            (opts ++ [OptionResponseFormat "json"]) = ⟨s, some ⟨some h1, b⟩, none⟩
          ∧ request ⟨k, nr, do2, g⟩ inc exc purchase
            (opts ++ [OptionResponseFormat "json"]) = ⟨s, some ⟨some h2, b⟩, none⟩ := by
    intro purchase
    cases hv : validateSearchTerms inc exc with
    | some a =>
      exact Or.inl ⟨[], none, .argError a, by simp [request, hv], by simp [request, hv]⟩
    | none =>
      cases ho : validateOptions (opts ++ [OptionResponseFormat "json"]) with
      | some a =>
        exact Or.inl ⟨[], none, .argError a, by simp [request, hv, ho],
          by simp [request, hv, ho]⟩
      | none =>
        cases hn : nr (marshalRequest (buildRequest k inc exc purchase
            (opts ++ [OptionResponseFormat "json"]))) with
        | some t =>
          exact Or.inl ⟨[], none, .clientError t, by simp [request, hv, ho, hn],
            by simp [request, hv, ho, hn]⟩
        | none =>
          obtain ⟨h1, h2, b, e1, e2⟩ := hsame (marshalRequest (buildRequest k inc exc purchase
            (opts ++ [OptionResponseFormat "json"])))
          exact Or.inr ⟨_, h1, h2, b,
            request_of_ok ⟨k, nr, do1, g⟩ inc exc purchase _ h1 b hv ho hn e1,
            request_of_ok ⟨k, nr, do2, g⟩ inc exc purchase _ h2 b hv ho hn e2⟩
  refine ⟨?_, ?_, ?_, ?_, rfl, rfl, rfl⟩
  · rcases key true with ⟨s, r, e, q1, q2⟩ | ⟨s, h1, h2, b, q1, q2⟩
    · rw [Purchase_of_request_error _ inc exc opts s r e q1,
        Purchase_of_request_error _ inc exc opts s r e q2]
    · rw [Purchase_of_request_ok _ inc exc opts s _ q1,
        Purchase_of_request_ok _ inc exc opts s _ q2]
      cases parse g b with
      | error err => rfl
      | ok r => by_cases hc : r.ErrorMessage.Message ≠ none ∨ r.ErrorMessage.Code ≠ 0 <;>
          simp [hc]
  · rcases key true with ⟨s, r, e, q1, q2⟩ | ⟨s, h1, h2, b, q1, q2⟩
    · rw [Purchase_of_request_error _ inc exc opts s r e q1,
        Purchase_of_request_error _ inc exc opts s r e q2]
    · rw [Purchase_of_request_ok _ inc exc opts s _ q1,
        Purchase_of_request_ok _ inc exc opts s _ q2]
      cases parse g b with
      | error err => rfl
      | ok r => by_cases hc : r.ErrorMessage.Message ≠ none ∨ r.ErrorMessage.Code ≠ 0 <;>
          simp [hc]
  · rcases key false with ⟨s, r, e, q1, q2⟩ | ⟨s, h1, h2, b, q1, q2⟩
    · rw [Preview_of_request_error _ inc exc opts s r e q1,
        Preview_of_request_error _ inc exc opts s r e q2]
    · rw [Preview_of_request_ok _ inc exc opts s _ q1,
        Preview_of_request_ok _ inc exc opts s _ q2]
      cases parse g b with
      | error err => rfl
      | ok r => by_cases hc : r.ErrorMessage.Message ≠ none ∨ r.ErrorMessage.Code ≠ 0 <;>
          simp [hc]
  · rcases key false with ⟨s, r, e, q1, q2⟩ | ⟨s, h1, h2, b, q1, q2⟩
    · rw [Preview_of_request_error _ inc exc opts s r e q1,
        Preview_of_request_error _ inc exc opts s r e q2]
    · rw [Preview_of_request_ok _ inc exc opts s _ q1,
        Preview_of_request_ok _ inc exc opts s _ q2]
      cases parse g b with
      | error err => rfl
      | ok r => by_cases hc : r.ErrorMessage.Message ≠ none ∨ r.ErrorMessage.Code ≠ 0 <;>
          simp [hc]

/-- Witness of C23: the success body of the tests on status 200 and on status 500. -/
theorem status_not_inspected_witness :
    (Preview ⟨"at_key", fun _ => none,
        fun _ => .ok ⟨200⟩ (asciiBytes "\x7b\"domainsCount\":4\x7d"), fun lit => lit⟩
        (some (some ["whois"])) none []).domainsCount
      = (Preview ⟨"at_key", fun _ => none,
        fun _ => .ok ⟨500⟩ (asciiBytes "\x7b\"domainsCount\":4\x7d"), fun lit => lit⟩
        (some (some ["whois"])) none []).domainsCount :=
  (status_not_inspected "at_key" (fun _ => none) (fun lit => lit)
    (fun _ => .ok ⟨200⟩ (asciiBytes "\x7b\"domainsCount\":4\x7d"))
    (fun _ => .ok ⟨500⟩ (asciiBytes "\x7b\"domainsCount\":4\x7d"))
    (some (some ["whois"])) none []
    (fun _ => ⟨⟨200⟩, ⟨500⟩, asciiBytes "\x7b\"domainsCount\":4\x7d", rfl, rfl⟩)).2.2.1

/-! ## What `UnmarshalJSON` accepts -/

/-- C22, counterexample: the number `1e999` is a single JSON scalar, and `UnmarshalJSON` of
`Messages` into a nil target fails on it: the literal is outside the float64 range, so the
decoding into `interface{}` returns an error. -/
theorem overflowing_number_fails :
    unmarshalValue (asciiBytes "1e999") = .ok (.num "1e999")
      ∧ Messages.UnmarshalJSON (fun lit => lit) none (asciiBytes "1e999")
        = (none, some (.unmarshalType "number 1e999" "float64" "")) := by
  exact ⟨rfl, rfl⟩

/-- C22, amended: for a JSON text whose value is a string, a boolean or a number within the
float64 range, `UnmarshalJSON` of `Messages` into a nil target succeeds and stores exactly one
element (the string itself for a string); and for every input it fails exactly when the input
is not a JSON text, or its value is neither `null` nor an array of strings and nulls and holds
a number literal outside the float64 range. -/
theorem messages_scalar_one_element (g : String → String) (b : Bytes) (v : Json)
    (hv : unmarshalValue b = .ok v)
    (hscalar : (∃ s, v = .str s) ∨ (∃ x, v = .bool x)
      ∨ ∃ lit, v = .num lit ∧ floatOverflows lit = false) :
    (∃ x, Messages.UnmarshalJSON g none b = (some [x], none))
      ∧ (∀ s, v = .str s → Messages.UnmarshalJSON g none b = (some [s], none))
      ∧ ∀ b2, ((Messages.UnmarshalJSON g none b2).2 ≠ none
          ↔ (∃ e, unmarshalValue b2 = .error e)
            ∨ ∃ w, unmarshalValue b2 = .ok w ∧ stringsOfValue w = none
              ∧ interfaceError w ≠ none) := by
  refine ⟨?_, ?_, ?_⟩
  · rcases hscalar with ⟨s, hs⟩ | ⟨x, hx⟩ | ⟨lit, hl, hfl⟩
    · subst hs
      exact ⟨s, by simp [Messages.UnmarshalJSON, hv, Messages.decodeFrom, stringsOfValue,
        interfaceError, sprintS]⟩
    · subst hx
      exact ⟨sprintS g (.bool x), by simp [Messages.UnmarshalJSON, hv, Messages.decodeFrom,
        stringsOfValue, interfaceError]⟩
    · subst hl
      exact ⟨sprintS g (.num lit), by simp [Messages.UnmarshalJSON, hv, Messages.decodeFrom,
        stringsOfValue, interfaceError, hfl]⟩
  · intro s hs
    subst hs
    simp [Messages.UnmarshalJSON, hv, Messages.decodeFrom, stringsOfValue, interfaceError,
      sprintS]
  · intro b2
    cases hu : unmarshalValue b2 with
    | error e => simp [Messages.UnmarshalJSON, hu]
    | ok w =>
      cases hsv : stringsOfValue w with
      | some msgs => simp [Messages.UnmarshalJSON, hu, Messages.decodeFrom, hsv]
      | none =>
        cases hie : interfaceError w with
        | some e => simp [Messages.UnmarshalJSON, hu, Messages.decodeFrom, hsv, hie]
        | none => simp [Messages.UnmarshalJSON, hu, Messages.decodeFrom, hsv, hie]

/-- Witness of C22 (amended): the boolean `true`. -/
theorem messages_scalar_one_element_witness :
    ∃ x, Messages.UnmarshalJSON (fun lit => lit) none (asciiBytes "true") = (some [x], none) :=
  (messages_scalar_one_element (fun lit => lit) (asciiBytes "true") (.bool true) rfl
    (Or.inr (Or.inl ⟨true, rfl⟩))).1

/-- C25, counterexample: on the JSON value `null`, which is not a string, `UnmarshalJSON` of
`Time` returns no error and overwrites the target with the zero `Time`. -/
theorem null_date_is_accepted :
    Time.UnmarshalJSON ⟨2000, 2, 2, 0, none⟩ (asciiBytes "null") = (emptyTime, none) := by
  decide

/-- C25, amended: `UnmarshalJSON` of `Time` returns no error exactly when its input is a JSON
text whose value is `null`, the empty string, or a string `YYYY-MM-DD` that is the format of a
calendar date with year 0..9999, month 1..12 and a day of that month; whenever it returns an
error the target is left as it was. The impossible date `2022-02-30` and the number `5` are
rejected. -/
theorem time_unmarshal_success_iff (t : Time) (b : Bytes) :
    ((Time.UnmarshalJSON t b).2 = none
        ↔ ∃ v, unmarshalValue b = .ok v
          ∧ (v = .null ∨ ∃ s, v = .str s ∧ (s = ""
            ∨ ∃ y m d : Nat, y < 10000 ∧ 1 ≤ m ∧ m ≤ 12 ∧ 1 ≤ d ∧ d ≤ daysIn m y
              ∧ s = (Time.mk (y : Int) m d 0 none).Format)))
      ∧ ((Time.UnmarshalJSON t b).2 ≠ none → (Time.UnmarshalJSON t b).1 = t)
      ∧ Time.UnmarshalJSON ⟨2000, 2, 2, 0, none⟩ (asciiBytes "\"2022-02-30\"")
        = (⟨2000, 2, 2, 0, none⟩, some (.timeParse "2022-02-30" ": day out of range"))
      ∧ Time.UnmarshalJSON ⟨2000, 2, 2, 0, none⟩ (asciiBytes "5")
        = (⟨2000, 2, 2, 0, none⟩, some (.unmarshalType "number" "string" "")) := by
  refine ⟨?_, ?_, by decide, by decide⟩
  · cases hu : unmarshalValue b with
    | error e => simp [Time.UnmarshalJSON, unmarshalString, hu, Time.store]
    | ok v =>
      cases v with
      | null => simp [Time.UnmarshalJSON, unmarshalString, hu, Time.store, stringOfValue]
      | bool x => simp [Time.UnmarshalJSON, unmarshalString, hu, Time.store, stringOfValue]
      | num lit => simp [Time.UnmarshalJSON, unmarshalString, hu, Time.store, stringOfValue]
      | arr items => simp [Time.UnmarshalJSON, unmarshalString, hu, Time.store, stringOfValue]
      | obj fields => simp [Time.UnmarshalJSON, unmarshalString, hu, Time.store, stringOfValue]
      | str s =>
        by_cases hs : s = ""
        · simp [Time.UnmarshalJSON, unmarshalString, hu, Time.store, stringOfValue, hs]
        · cases hp : parseDate s with
          | ok w =>
            obtain ⟨y, m, d, hy, hm1, hm12, hd1, hdm, _, hfmt⟩ := parseDate_ok s w hp
            simp only [Time.UnmarshalJSON, unmarshalString, hu, Time.store, stringOfValue,
              hs, if_false, hp, true_iff]
            exact ⟨.str s, rfl, Or.inr ⟨s, rfl, Or.inr ⟨y, m, d, hy, hm1, hm12, hd1, hdm,
              hfmt⟩⟩⟩
          | error e =>
            simp only [Time.UnmarshalJSON, unmarshalString, hu, Time.store, stringOfValue,
              hs, if_false, hp]
            constructor
            · intro hcontra
              cases hcontra
            rintro ⟨v, hv, hcase⟩
            exfalso
            cases hv
            rcases hcase with hnull | ⟨s2, hs2, hempty | ⟨y, m, d, hy, hm1, hm12, hd1, hdm,
              hfmt⟩⟩
            · cases hnull
            · cases hs2
              exact hs hempty
            · cases hs2
              rw [hfmt, parseDate_format y m d 0 none hy hm1 hm12 hd1 hdm] at hp
              cases hp
  · cases hu : unmarshalValue b with
    | error e => simp [Time.UnmarshalJSON, unmarshalString, hu, Time.store]
    | ok v =>
      cases hsv : stringOfValue v with
      | error e => simp [Time.UnmarshalJSON, unmarshalString, hu, Time.store, hsv]
      | ok s =>
        by_cases hs : s = ""
        · simp [Time.UnmarshalJSON, unmarshalString, hu, Time.store, hsv, hs]
        · cases hp : parseDate s with
          | ok w => simp [Time.UnmarshalJSON, unmarshalString, hu, Time.store, hsv, hs, hp]
          | error e => simp [Time.UnmarshalJSON, unmarshalString, hu, Time.store, hsv, hs, hp]

end brandalert
